import Mathlib

/-!
Verification development for the grf2txt NewGRF metadata extractor.

The Python sources (`binreader.py`, `grfstrings.py`, `newgrf.py`) are shallowly
embedded below.  Bytes are modelled as `Fin 256`, byte strings as `List (Fin 256)`,
Python exceptions as `Except` error values, and unbounded `while` loops as
structural recursion on an explicit fuel argument (the chosen fuel is always at
least the number of remaining input bytes plus one, which the loops can never
exhaust because every iteration consumes at least one byte; running out of fuel
is reported as a distinguished error value that the theorems show, or assume,
never to occur).  The streaming hash attached to a reader is modelled by
recording the exact list of bytes fed to it.
-/

deriving instance DecidableEq for Except

namespace Grf2Txt

/-- Byte values 0..255, as read from the input file. -/
abbrev Byte := Fin 256

/-- Errors raised by `binreader.py` and `newgrf.py` (Python `RuntimeError`s),
plus `outOfFuel` for the fuel-based loop embedding. -/
inductive Err where
  /-- RuntimeError "Unexpected end-of-file." from the fixed-width readers. -/
  | eof
  /-- RuntimeError "Invalid gamma encoding." -/
  | invalidGamma
  /-- RuntimeError "Neither container 1 nor 2." -/
  | unknownContainer
  /-- RuntimeError "Unknown container 2 compression." -/
  | unknownCompression
  /-- RuntimeError "Failed sprite decoding." -/
  | failedSpriteDecoding
  /-- RuntimeError "Unknown info byte." -/
  | unknownInfoByte
  /-- RuntimeError "Junk at the end of file." -/
  | junkAtEnd
  /-- Fuel exhaustion of the loop embedding (never reached for adequate fuel). -/
  | outOfFuel
deriving DecidableEq, Repr

/-- Model of `binreader.BinaryReader`: a cursor over the full input, together
with the list of bytes that have been fed to the attached streaming hash
(`hashed`) and whether the hash is still attached (`hashOn`). -/
structure BinaryReader where
  input : List Byte
  pos : Nat
  hashed : List Byte
  hashOn : Bool
deriving DecidableEq, Repr

namespace BinaryReader

/-- Fresh reader over `input` with a hash attached (as in `NewGRF.read`). -/
def mkHashed (input : List Byte) : BinaryReader := ⟨input, 0, [], true⟩

/-- Fresh reader over `input` without a hash (as in `BinaryReader(BytesIO(pseudo))`). -/
def mkPlain (input : List Byte) : BinaryReader := ⟨input, 0, [], false⟩

/-- Model of `BinaryReader.detach_hash`. -/
def detach_hash (r : BinaryReader) : BinaryReader := { r with hashOn := false }

/-- Model of `BinaryReader.read`: returns up to `amount` bytes (fewer at end of
input, without error) and feeds every byte actually read to the hash. -/
def read (r : BinaryReader) (amount : Nat) : List Byte × BinaryReader :=
  let b := (r.input.drop r.pos).take amount
  (b, { r with pos := r.pos + b.length,
               hashed := if r.hashOn then r.hashed ++ b else r.hashed })

/-- Model of `BinaryReader.skip` (a `read` whose bytes are discarded). -/
def skip (r : BinaryReader) (amount : Nat) : BinaryReader := (r.read amount).2

/-- Model of `BinaryReader.uint8`: one byte, or "Unexpected end-of-file.". -/
def uint8 (r : BinaryReader) : Except Err (Nat × BinaryReader) :=
  match r.read 1 with
  | ([b], r') => .ok (b.val, r')
  | _ => .error .eof

/-- Model of `BinaryReader.uint16` (little-endian unless `be`). -/
def uint16 (r : BinaryReader) (be : Bool) : Except Err (Nat × BinaryReader) :=
  match r.read 2 with
  | ([b0, b1], r') => .ok (if be then b0.val * 256 + b1.val else b1.val * 256 + b0.val, r')
  | _ => .error .eof

/-- Model of `BinaryReader.uint24` (big-endian variant; the source builds the
value with shifts and ors). -/
def uint24 (r : BinaryReader) (be : Bool) : Except Err (Nat × BinaryReader) :=
  match r.read 3 with
  | ([b0, b1, b2], r') =>
      .ok (if be then b0.val <<< 16 ||| b1.val <<< 8 ||| b2.val
           else b2.val <<< 16 ||| b1.val <<< 8 ||| b0.val, r')
  | _ => .error .eof

/-- Model of `BinaryReader.uint32` (little-endian unless `be`). -/
def uint32 (r : BinaryReader) (be : Bool) : Except Err (Nat × BinaryReader) :=
  match r.read 4 with
  | ([b0, b1, b2, b3], r') =>
      .ok (if be then ((b0.val * 256 + b1.val) * 256 + b2.val) * 256 + b3.val
           else ((b3.val * 256 + b2.val) * 256 + b1.val) * 256 + b0.val, r')
  | _ => .error .eof

/-- Model of `BinaryReader.uint_ext` (NewGRF extended byte: `0xFF` escapes to a
little-endian 16-bit value). -/
def uint_ext (r : BinaryReader) : Except Err (Nat × BinaryReader) := do
  let (b, r) ← r.uint8
  if b = 0xFF then r.uint16 false else .ok (b, r)

/-- Model of the zero-terminated-string loop body of `BinaryReader.str`;
`fuel` bounds the iteration count (the loop reads one byte per iteration). -/
def strLoop : Nat → BinaryReader → List Byte → List Byte × BinaryReader
  | 0, r, acc => (acc, r)
  | fuel + 1, r, acc =>
    match r.read 1 with
    | ([b], r') => if b.val = 0 then (acc, r') else strLoop fuel r' (acc ++ [b])
    | _ => (acc, (r.read 1).2)

/-- Model of `BinaryReader.str`: read bytes until a NUL byte or end of input
(no error on a missing terminator). -/
def str (r : BinaryReader) : List Byte × BinaryReader :=
  strLoop (r.input.length + 1) r []

/-- Model of `BinaryReader.gamma` (OTTD-savegame-style gamma value): returns
the decoded value together with the number of bytes consumed. -/
def gamma (r : BinaryReader) : Except Err ((Nat × Nat) × BinaryReader) := do
  let (b, r) ← r.uint8
  if b &&& 0x80 = 0 then
    .ok ((b &&& 0x7F, 1), r)
  else if b &&& 0xC0 = 0x80 then do
    let (b1, r) ← r.uint8
    .ok (((b &&& 0x3F) <<< 8 ||| b1, 2), r)
  else if b &&& 0xE0 = 0xC0 then do
    let (w, r) ← r.uint16 true
    .ok (((b &&& 0x1F) <<< 16 ||| w, 3), r)
  else if b &&& 0xF0 = 0xE0 then do
    let (w, r) ← r.uint24 true
    .ok (((b &&& 0x0F) <<< 24 ||| w, 4), r)
  else if b &&& 0xF8 = 0xF0 then do
    let (w, r) ← r.uint32 true
    .ok (((b &&& 0x07) <<< 32 ||| w, 5), r)
  else
    .error .invalidGamma

end BinaryReader

/-- Insertion-ordered association-list update, mirroring Python `dict`
assignment: replace the value in place if the key exists, else append. -/
def dictInsert {α β : Type} [DecidableEq α] : List (α × β) → α → β → List (α × β)
  | [], k, v => [(k, v)]
  | (k0, v0) :: t, k, v =>
    if k0 = k then (k0, v) :: t else (k0, v0) :: dictInsert t k v

/-- Association-list lookup, mirroring Python `dict` access. -/
def dictGet {α β : Type} [DecidableEq α] : List (α × β) → α → Option β
  | [], _ => none
  | (k0, v) :: t, k => if k0 = k then some v else dictGet t k

/-- Errors raised inside `grfstrings.decodestr`: a Python `IndexError` from an
unchecked `b[pos]`, an `AssertionError` from a failed `assert`, a `ValueError`
from `chr` on a value above 0x10FFFF, plus fuel exhaustion of the embedding. -/
inductive DecodeErr where
  | indexError
  | assertionError
  | valueError
  | outOfFuel
deriving DecidableEq, Repr

/-- Model of `grfstrings.CommandName` (base name and translation name). -/
structure CommandName where
  base_name : String
  translation_name : String
deriving DecidableEq, Repr

/-- Model of `grfstrings.StackParam`: the original id of the first consumed
slot and the consumed width. -/
structure StackParam where
  offset : Int
  size : Nat
deriving DecidableEq, Repr

/-- Model of `grfstrings.TextCommand`. -/
structure TextCommand where
  base_name : String
  translation_name : String
  inline_param_size : Nat
  stack_param : List StackParam
deriving DecidableEq, Repr

/-- Behaviour variants of a control code; the source stores the bound methods
`standard_command`, `push_word` and `rotate_words` as `command_handler`. -/
inductive HandlerKind where
  | standard
  | pushWord
  | rotateWords
deriving DecidableEq, Repr

/-- Model of `grfstrings.ControlCode`.  The dataclass post-init copies
`base_name` into an empty `translation_name`, and the tables never set
`translation_name`, so the two fields coincide for every table entry. -/
structure ControlCode where
  base_name : String
  translation_name : String
  inline_param_size : Nat
  stack_param_size : List Nat
  command_handler : HandlerKind
deriving DecidableEq, Repr

/-- Table-entry constructor applying the dataclass defaulting of the source. -/
def mkCC (base : String) (inline : Nat) (widths : List Nat) (h : HandlerKind) : ControlCode :=
  ⟨base, base, inline, widths, h⟩

/-- Default `ControlCode()` used for unknown codes. -/
def ControlCode.default : ControlCode := mkCC "" 0 [] .standard

/-- Model of `grfstrings.TextRefStack`. -/
structure TextRefStack where
  stack_index : List Int
  commands : List TextCommand
deriving DecidableEq, Repr

/-- Fresh `TextRefStack`: 64 slots numbered 0..63, no recorded commands. -/
def TextRefStack.init : TextRefStack := ⟨(List.range 64).map Int.ofNat, []⟩

/-- Consumption loop of `TextRefStack.standard_command`: for each declared
width, assert that enough slots are held, record the first remaining slot id,
and delete the first `size` slots.  The `indexError` case models the
`stack_index[0]` access on an empty list, reachable only for width 0. -/
def consumeParams : List Int → List Nat → List StackParam →
    Except DecodeErr (List Int × List StackParam)
  | stack, [], acc => .ok (stack, acc)
  | stack, size :: rest, acc =>
    if stack.length < size then .error .assertionError
    else
      match stack with
      | [] => .error .indexError
      | s0 :: _ => consumeParams (stack.drop size) rest (acc ++ [⟨s0, size⟩])

/-- Model of `TextRefStack.standard_command`. -/
def TextRefStack.standard_command (st : TextRefStack) (cc : ControlCode) :
    Except DecodeErr TextRefStack :=
  if cc.inline_param_size ≠ 0 ∨ cc.stack_param_size ≠ [] then do
    let (stack', params) ← consumeParams st.stack_index cc.stack_param_size []
    let tc : TextCommand := ⟨cc.base_name, cc.translation_name, cc.inline_param_size, params⟩
    .ok ⟨stack', if cc.base_name ≠ "" then st.commands ++ [tc] else st.commands⟩
  else .ok st

/-- Model of `TextRefStack.push_word`: prepend two unknown-source sentinels. -/
def TextRefStack.push_word (st : TextRefStack) : TextRefStack :=
  ⟨-1 :: -1 :: st.stack_index, st.commands⟩

/-- Pure slot permutation of `TextRefStack.rotate_words` (Python slice
assignment `stack[0:8] = stack[6:8] + stack[0:6]` on a list of length ≥ 8). -/
def rotateWordsList (l : List Int) : List Int :=
  (l.drop 6).take 2 ++ l.take 6 ++ l.drop 8

/-- Model of `TextRefStack.rotate_words` including its `assert len >= 8`. -/
def TextRefStack.rotate_words (st : TextRefStack) : Except DecodeErr TextRefStack :=
  if 8 ≤ st.stack_index.length then .ok ⟨rotateWordsList st.stack_index, st.commands⟩
  else .error .assertionError

/-- Dispatch of `cc.command_handler(stack, cc)`. -/
def runHandler (cc : ControlCode) (st : TextRefStack) : Except DecodeErr TextRefStack :=
  match cc.command_handler with
  | .standard => st.standard_command cc
  | .pushWord => .ok st.push_word
  | .rotateWords => st.rotate_words

/-- Model of `TextRefStack.get_stack_types`: map every covered slot offset to
the consuming command and the byte position within it. -/
def TextRefStack.get_stack_types (st : TextRefStack) : List (Int × (CommandName × Nat)) :=
  st.commands.foldl
    (fun result tc =>
      tc.stack_param.foldl
        (fun result sp =>
          (List.range sp.size).foldl
            (fun result i =>
              dictInsert result (sp.offset + Int.ofNat i) (⟨tc.base_name, tc.translation_name⟩, i))
            result)
        result)
    []

/-- Model of the primary control-code table `CTRL_CODES`. -/
def CTRL_CODES : List (Nat × ControlCode) :=
  [(0x01, mkCC "" 1 [] .standard),
   (0x0E, mkCC "\x7bTINY_FONT\x7d" 0 [] .standard),
   (0x0F, mkCC "\x7bBIG_FONT\x7d" 0 [] .standard),
   (0x1F, mkCC "" 2 [] .standard),
   (0x7B, mkCC "\x7bCOMMA\x7d" 0 [4] .standard),
   (0x7C, mkCC "\x7bCOMMA\x7d" 0 [2] .standard),
   (0x7D, mkCC "\x7bCOMMA\x7d" 0 [1] .standard),
   (0x7E, mkCC "\x7bCOMMA\x7d" 0 [2] .standard),
   (0x7F, mkCC "\x7bCURRENCY_LONG\x7d" 0 [4] .standard),
   (0x80, mkCC "\x7bSTRING\x7d" 0 [2] .standard),
   (0x81, mkCC "\x7bSTRING\x7d" 2 [] .standard),
   (0x82, mkCC "\x7bDATE_LONG\x7d" 0 [2] .standard),
   (0x83, mkCC "\x7bDATE_SHORT\x7d" 0 [2] .standard),
   (0x84, mkCC "\x7bSPEED\x7d" 0 [2] .standard),
   (0x85, mkCC "" 0 [2] .standard),
   (0x86, mkCC "" 0 [] .rotateWords),
   (0x87, mkCC "\x7bVOLUME_LONG\x7d" 0 [2] .standard),
   (0x88, mkCC "\x7bBLUE\x7d" 0 [] .standard),
   (0x89, mkCC "\x7bSILVER\x7d" 0 [] .standard),
   (0x8A, mkCC "\x7bGOLD\x7d" 0 [] .standard),
   (0x8B, mkCC "\x7bRED\x7d" 0 [] .standard),
   (0x8C, mkCC "\x7bPURPLE\x7d" 0 [] .standard),
   (0x8D, mkCC "\x7bLTBROWN\x7d" 0 [] .standard),
   (0x8E, mkCC "\x7bORANGE\x7d" 0 [] .standard),
   (0x8F, mkCC "\x7bGREEN\x7d" 0 [] .standard),
   (0x90, mkCC "\x7bYELLOW\x7d" 0 [] .standard),
   (0x91, mkCC "\x7bDKGREEN\x7d" 0 [] .standard),
   (0x92, mkCC "\x7bCREAM\x7d" 0 [] .standard),
   (0x93, mkCC "\x7bBROWN\x7d" 0 [] .standard),
   (0x94, mkCC "\x7bWHITE\x7d" 0 [] .standard),
   (0x95, mkCC "\x7bLTBLUE\x7d" 0 [] .standard),
   (0x96, mkCC "\x7bGRAY\x7d" 0 [] .standard),
   (0x97, mkCC "\x7bDKBLUE\x7d" 0 [] .standard),
   (0x98, mkCC "\x7bBLACK\x7d" 0 [] .standard),
   (0x99, mkCC "" 1 [] .standard),
   (0x9E, mkCC "€" 0 [] .standard),
   (0x9F, mkCC "Ÿ" 0 [] .standard),
   (0xA0, mkCC "\x7bUP_ARROW\x7d" 0 [] .standard),
   (0xAA, mkCC "\x7bDOWN_ARROW\x7d" 0 [] .standard),
   (0xAC, mkCC "\x7bCHECKMARK\x7d" 0 [] .standard),
   (0xAD, mkCC "\x7bCROSS\x7d" 0 [] .standard),
   (0xAF, mkCC "\x7bRIGHT_ARROW\x7d" 0 [] .standard),
   (0xB4, mkCC "\x7bTRAIN\x7d" 0 [] .standard),
   (0xB5, mkCC "\x7bLORRY\x7d" 0 [] .standard),
   (0xB6, mkCC "\x7bBUS\x7d" 0 [] .standard),
   (0xB7, mkCC "\x7bPLANE\x7d" 0 [] .standard),
   (0xB8, mkCC "\x7bSHIP\x7d" 0 [] .standard),
   (0xB9, mkCC "₋₁" 0 [] .standard),
   (0xBC, mkCC "\x7bSMALL_UP_ARROW\x7d" 0 [] .standard),
   (0xBD, mkCC "\x7bSMALL_DOWN_ARROW\x7d" 0 [] .standard)]

/-- Model of the extended control-code table `EXT_CTRL_CODES`. -/
def EXT_CTRL_CODES : List (Nat × ControlCode) :=
  [(0x00, mkCC "\x7bCURRENCY_LONG\x7d" 0 [8] .standard),
   (0x01, mkCC "\x7bCURRENCY_LONG\x7d" 0 [8] .standard),
   (0x02, mkCC "" 0 [] .standard),
   (0x03, mkCC "" 2 [] .pushWord),
   (0x04, mkCC "" 1 [] .standard),
   (0x06, mkCC "\x7bHEX\x7d" 0 [1] .standard),
   (0x07, mkCC "\x7bHEX\x7d" 0 [2] .standard),
   (0x08, mkCC "\x7bHEX\x7d" 0 [4] .standard),
   (0x0B, mkCC "\x7bHEX\x7d" 0 [8] .standard),
   (0x0C, mkCC "\x7bSTATION\x7d" 0 [2] .standard),
   (0x0D, mkCC "\x7bWEIGHT_LONG\x7d" 0 [2] .standard),
   (0x0E, mkCC "" 1 [] .standard),
   (0x0F, mkCC "" 1 [] .standard),
   (0x10, mkCC "" 1 [] .standard),
   (0x11, mkCC "" 1 [] .standard),
   (0x12, mkCC "" 0 [] .standard),
   (0x13, mkCC "" 1 [] .standard),
   (0x14, mkCC "" 0 [] .standard),
   (0x15, mkCC "" 1 [] .standard),
   (0x16, mkCC "\x7bDATE_LONG\x7d" 0 [4] .standard),
   (0x17, mkCC "\x7bDATE_SHORT\x7d" 0 [4] .standard),
   (0x18, mkCC "\x7bPOWER\x7d" 0 [2] .standard),
   (0x19, mkCC "\x7bVOLUME_SHORT\x7d" 0 [2] .standard),
   (0x1A, mkCC "\x7bWEIGHT_SHORT\x7d" 0 [2] .standard),
   (0x1B, mkCC "\x7bCARGO_LONG\x7d" 0 [2, 2] .standard),
   (0x1C, mkCC "\x7bCARGO_SHORT\x7d" 0 [2, 2] .standard),
   (0x1D, mkCC "\x7bCARGO_TINY\x7d" 0 [2, 2] .standard),
   (0x1E, mkCC "\x7bCARGO_NAME\x7d" 0 [2] .standard),
   (0x1F, mkCC "\x7bPUSH_COLOUR\x7d" 0 [] .standard),
   (0x20, mkCC "\x7bPOP_COLOUR\x7d" 0 [] .standard),
   (0x21, mkCC "\x7bFORCE\x7d" 0 [4] .standard)]

/-- Code points of a Lean string literal (decoded text is modelled as a list
of Unicode code points, because Python `str` admits lone surrogates that a
Lean `Char` cannot hold). -/
def strCodes (s : String) : List Nat := s.data.map Char.toNat

/-- Model of the `ALIASES` table, keyed by code point. -/
def ALIASES : List (Nat × List Nat) :=
  [(0x000D, strCodes "\x7b\x7d"),
   (0x007B, strCodes "\x7b\x7b\x7d"),
   (0x00A0, strCodes "\x7bNBSP\x7d"),
   (0x00A9, strCodes "\x7bCOPYRIGHT\x7d"),
   (0x200E, strCodes "\x7bLRM\x7d"),
   (0x200F, strCodes "\x7bRLM\x7d"),
   (0x202A, strCodes "\x7bLRE\x7d"),
   (0x202B, strCodes "\x7bRLE\x7d"),
   (0x202D, strCodes "\x7bLRO\x7d"),
   (0x202E, strCodes "\x7bRLO\x7d"),
   (0x202C, strCodes "\x7bPDF\x7d")]

/-- Alias substitution `ALIASES.get(s, s)` on a literal code point. -/
def aliasOf (c : Nat) : List Nat := (dictGet ALIASES c).getD [c]

/-- Model of `grfstrings.getutf8`: decode one UTF-8 sequence at `pos`,
returning `(length, code point)`, or `none` for a malformed sequence
(the source's `(0, None)`). -/
def getutf8 (b : List Byte) (pos : Nat) : Option (Nat × Nat) :=
  let b0 := (b.getD pos 0).val
  let b1 := (b.getD (pos + 1) 0).val
  let b2 := (b.getD (pos + 2) 0).val
  let b3 := (b.getD (pos + 3) 0).val
  if pos + 1 ≤ b.length ∧ b0 &&& 0x80 = 0 then
    some (1, b0)
  else if pos + 2 ≤ b.length ∧ b0 &&& 0xE0 = 0xC0 ∧ b1 &&& 0xC0 = 0x80 then
    some (2, (b0 &&& 0x1F) <<< 6 ||| (b1 &&& 0x3F))
  else if pos + 3 ≤ b.length ∧ b0 &&& 0xF0 = 0xE0 ∧ b1 &&& 0xC0 = 0x80 ∧ b2 &&& 0xC0 = 0x80 then
    some (3, (b0 &&& 0x0F) <<< 12 ||| (b1 &&& 0x3F) <<< 6 ||| (b2 &&& 0x3F))
  else if pos + 4 ≤ b.length ∧ b0 &&& 0xF8 = 0xF0 ∧ b1 &&& 0xC0 = 0x80 ∧ b2 &&& 0xC0 = 0x80 ∧
      b3 &&& 0xC0 = 0x80 then
    some (4, (b0 &&& 0x07) <<< 18 ||| (b1 &&& 0x3F) <<< 12 ||| (b2 &&& 0x3F) <<< 6 ||| (b3 &&& 0x3F))
  else none

/-- Code-point extraction step of the `decodestr` loop (requires
`pos < b.length`): returns the code point, already remapped into the
`0xE000 + byte` private-use band where the source does so, together with the
position after it. -/
def nextCode (isUni : Bool) (b : List Byte) (pos : Nat) : Nat × Nat :=
  if isUni then
    match getutf8 b pos with
    | some (size, c) => (c, pos + size)
    | none => (0xE000 + (b.getD pos 0).val, pos + 1)
  else
    let c := (b.getD pos 0).val
    if (dictGet CTRL_CODES c).isSome ∨ c = 0x9A then (0xE000 + c, pos + 1) else (c, pos + 1)

/-- Outcome of one iteration of the `decodestr` loop body: either a raised
exception, or the next position, stack and accumulated output. -/
inductive StepOut where
  | fail (e : DecodeErr)
  | next (pos : Nat) (stack : TextRefStack) (result : List Nat)
deriving DecidableEq, Repr

/-- One iteration of the `decodestr` loop body (for `pos < b.length`):
extract a code point, dispatch it, and report the updated position, stack and
output, or a raised exception. -/
def decodestrStep (isUni : Bool) (b : List Byte) (pos : Nat) (stack : TextRefStack)
    (result : List Nat) : StepOut :=
  let cp := nextCode isUni b pos
  let c := cp.1
  let pos' := cp.2
  if c = 0xE09A then
    if h : pos' < b.length then
      let c2 := (b.get ⟨pos', h⟩).val
      let cc := (dictGet EXT_CTRL_CODES c2).getD ControlCode.default
      match runHandler cc stack with
      | .error e => .fail e
      | .ok stack =>
        .next (pos' + 1 + cc.inline_param_size) stack (result ++ strCodes cc.translation_name)
    else .fail .indexError
  else if 0xE000 ≤ c ∧ c ≤ 0xE0FF then
    let cc := (dictGet CTRL_CODES (c - 0xE000)).getD ControlCode.default
    match runHandler cc stack with
    | .error e => .fail e
    | .ok stack =>
      .next (pos' + cc.inline_param_size) stack (result ++ strCodes cc.translation_name)
  else if 32 ≤ c ∨ c = 13 then
    if c < 0x110000 then .next pos' stack (result ++ aliasOf c)
    else .fail .valueError
  else .next pos' stack result

/-- Main loop of `grfstrings.decodestr`, one fuel unit per iteration. -/
def decodestrLoop (isUni : Bool) (b : List Byte) :
    Nat → Nat → TextRefStack → List Nat → Except DecodeErr (List Nat × TextRefStack)
  | 0, _, _, _ => .error .outOfFuel
  | fuel + 1, pos, stack, result =>
    if pos < b.length then
      match decodestrStep isUni b pos stack result with
      | .fail e => .error e
      | .next pos' stack' result' => decodestrLoop isUni b fuel pos' stack' result'
    else .ok (result, stack)

/-- Unfolding equation of one `decodestrLoop` iteration (definitional). -/
lemma decodestrLoop_succ (isUni : Bool) (b : List Byte) (fuel pos : Nat)
    (stack : TextRefStack) (result : List Nat) :
    decodestrLoop isUni b (fuel + 1) pos stack result =
      (if pos < b.length then
        match decodestrStep isUni b pos stack result with
        | .fail e => .error e
        | .next pos' stack' result' => decodestrLoop isUni b fuel pos' stack' result'
      else .ok (result, stack)) := rfl

/-- Model of `grfstrings.decodestr`: normalized text (as code points) plus the
slot-offset classification map.  The body is UTF-8 when it opens with the
2-byte UTF-8 form of U+00DE, in which case decoding starts at position 2. -/
def decodestr (b : List Byte) : Except DecodeErr (List Nat × List (Int × (CommandName × Nat))) :=
  match decodestrLoop (decide (getutf8 b 0 = some (2, 0x00DE))) b (b.length + 1)
      (if getutf8 b 0 = some (2, 0x00DE) then 2 else 0) TextRefStack.init [] with
  | .error e => .error e
  | .ok (result, stack) => .ok (result, stack.get_stack_types)

/-- Errors of `grfstrings.process_string`: the dedicated "Missing base
language text" `RuntimeError`, or an error propagated from `decodestr`. -/
inductive StrErr where
  | missingBaseText
  | decode (e : DecodeErr)
deriving DecidableEq, Repr

/-- Decoding pass of the `process_string` loop over all supplied translations,
in order, keeping only the normalized text. -/
def decodeAll : List (Nat × List Byte) → Except DecodeErr (List (Nat × List Nat))
  | [] => .ok []
  | (lang, t) :: rest =>
    match decodestr t with
    | .error e => .error e
    | .ok (txt, _) =>
      match decodeAll rest with
      | .error e => .error e
      | .ok items => .ok ((lang, txt) :: items)

/-- Model of `grfstrings.process_string`: fail without a 0x7F translation;
otherwise decode the base text, then re-decode every supplied translation
(including 0x7F) into a dict keyed by language tag. -/
def process_string (raw : List (Nat × List Byte)) :
    Except StrErr (List (Nat × List Nat)) :=
  match dictGet raw 0x7F with
  | none => .error .missingBaseText
  | some base_raw =>
    match decodestr base_raw with
    | .error e => .error (.decode e)
    | .ok (base_text, _) =>
      match decodeAll raw with
      | .error e => .error (.decode e)
      | .ok items =>
        .ok (items.foldl (fun m p => dictInsert m p.1 p.2) [(0x7F, base_text)])

/-- Model of `newgrf.GRFString`.  The source stores `str_name` as a Python
`str` obtained by an ASCII decode; the model keeps the raw bytes. -/
structure GRFString where
  str_name : List Byte
  translations : List (Nat × List Byte)
deriving DecidableEq, Repr

/-- Default `GRFString()` created by the `defaultdict`. -/
def GRFString.init : GRFString := ⟨[], []⟩

/-- Model of `GRFString.add_text`: tag 0x7E assigns the symbolic key itself,
any other tag stores a translation. -/
def GRFString.add_text (s : GRFString) (lang_id : Nat) (text : List Byte) : GRFString :=
  if lang_id = 0x7E then { s with str_name := text }
  else { s with translations := dictInsert s.translations lang_id text }

/-- Model of `newgrf.ParserState`.  The source's `actionb_string` holds a
reference to the `GRFString` object stored in `self.strings`; the model holds
the string key instead, which is observationally equivalent because entries
are never removed. -/
structure ParserState where
  action6_effect : Bool
  actionb_string : Option String
deriving DecidableEq, Repr

/-- Fresh `ParserState()`. -/
def ParserState.init : ParserState := ⟨false, none⟩

/-- Model of the mutable metadata of a `newgrf.NewGRF` instance (nested
`defaultdict`s become insertion-ordered association lists). -/
structure GRF where
  grf_version : Option Nat
  unique_id : Option (List Byte)
  version : Option Nat
  min_compatible_version : Option Nat
  container_version : Option Nat
  plurals : List (Nat × Nat)
  genders : List (Nat × List (Nat × List (List Byte)))
  cases : List (Nat × List (Nat × List (List Byte)))
  strings : List (String × GRFString)
  feature_mapping : List (Nat × Nat)
  next_feature_map : Option Nat
deriving DecidableEq, Repr

/-- Fresh `NewGRF()` metadata. -/
def GRF.init : GRF := ⟨none, none, none, none, none, [], [], [], [], [], none⟩

/-- Model of `self.strings[key].add_text(lang, text)` on the `defaultdict`. -/
def GRF.addText (g : GRF) (key : String) (lang : Nat) (text : List Byte) : GRF :=
  { g with strings :=
      dictInsert g.strings key (((dictGet g.strings key).getD GRFString.init).add_text lang text) }

/-- Model of a bare `self.strings[key]` access on the `defaultdict`, which
creates the entry if absent. -/
def GRF.ensureString (g : GRF) (key : String) : GRF :=
  { g with strings := dictInsert g.strings key ((dictGet g.strings key).getD GRFString.init) }

/-- Append into the doubly nested gender/case `defaultdict`s. -/
def mm2append (m : List (Nat × List (Nat × List (List Byte)))) (k1 k2 : Nat) (x : List Byte) :
    List (Nat × List (Nat × List (List Byte))) :=
  let inner := (dictGet m k1).getD []
  let lst := (dictGet inner k2).getD []
  dictInsert m k1 (dictInsert inner k2 (lst ++ [x]))

/-- Model of `NewGRF.FEATURES`. -/
def FEATURES : List (Nat × String) :=
  [(0x00, "TRAIN"), (0x01, "ROAD_VEHICLE"), (0x02, "SHIP"), (0x03, "AIRCRAFT"),
   (0x04, "STATION"), (0x05, "CANAL"), (0x06, "BRIDGE"), (0x07, "HOUSE"),
   (0x08, "GLOBAL"), (0x09, "INDUSTRY_TILE"), (0x0A, "INDUSTRY"), (0x0B, "CARGO"),
   (0x0C, "SOUND_EFFECT"), (0x0D, "AIRPORT"), (0x0E, "SIGNAL"), (0x0F, "OBJECT"),
   (0x10, "RAILTYPE"), (0x11, "AIRPORT_TILE"), (0x12, "ROADTYPE"), (0x13, "TRAMTYPE"),
   (0x14, "ROAD_STOP")]

/-- Uppercase hexadecimal digits of `n`, most significant first. -/
def hexDigitsAux : Nat → Nat → List Char
  | 0, _ => []
  | fuel + 1, n =>
    if n = 0 then []
    else hexDigitsAux fuel (n / 16) ++
      [Char.ofNat (if n % 16 < 10 then 48 + n % 16 else 55 + n % 16)]

/-- Python `f"\x7bindex:04X\x7d"` formatting: uppercase hex, zero-padded to at
least four digits. -/
def pyHex04X (n : Nat) : String :=
  let ds := if n = 0 then ['0'] else hexDigitsAux (n + 1) n
  ⟨List.replicate (4 - ds.length) '0' ++ ds⟩

/-- Model of `NewGRF.str_feature`. -/
def str_feature (feature index : Nat) : String :=
  "STR_" ++ (dictGet FEATURES feature).getD (toString feature) ++ "_" ++ toString index

/-- Model of `NewGRF.str_ext`. -/
def str_ext (index : Nat) : String :=
  if 0xC400 ≤ index ∧ index < 0xC500 then
    "STR_STATION_CLASS_" ++ toString (index - 0xC400) ++ "_NAME"
  else if 0xC500 ≤ index ∧ index < 0xC600 then
    "STR_STATION_" ++ toString (index - 0xC500) ++ "_NAME"
  else if 0xC900 ≤ index ∧ index < 0xCA00 then
    "STR_HOUSE_" ++ toString (index - 0xC900) ++ "_NAME"
  else
    "STR_GENERIC_" ++ pyHex04X index

/-- Model of `NewGRF.str_error`. -/
def str_error (index : Nat) : String := "STR_ERROR_" ++ toString index

/-- Model of `NewGRF.str_param_name`. -/
def str_param_name (index : Nat) : String := "STR_PARAM_" ++ toString index ++ "_NAME"

/-- Model of `NewGRF.str_param_description`. -/
def str_param_description (index : Nat) : String := "STR_PARAM_" ++ toString index ++ "_DESCRIPTION"

/-- Byte string of an ASCII string literal (Python `bytes` literal). -/
def bstr (s : String) : List Byte := s.data.map (fun c => ⟨c.toNat % 256, Nat.mod_lt _ (by omega)⟩)

/-- Python `==` between a `bytes`/`bytearray` value and a `str` value.  In
Python 3 these are distinct types and their equality is `False` whatever the
contents; `NewGRF.read_a14` compares the byte string returned by
`reader.str()` against the `str` literal `"road_stops"` through exactly this
cross-type comparison. -/
def pyBytesEqStr (_ : List Byte) (_ : String) : Bool := false

/-- Python truthiness of an `Optional[int]`: `None` and `0` are falsy. -/
def pyTruthyOpt : Option Nat → Bool
  | none => false
  | some v => v ≠ 0

/-- Little-endian integer of a byte string (`int.from_bytes(b, "little")`). -/
def leNat (bs : List Byte) : Nat := bs.foldr (fun b acc => acc * 256 + b.val) 0

/-- Little-endian 4-byte encoding (`v.to_bytes(4, "little")`). -/
def leBytes4 (v : Nat) : List Byte :=
  [⟨v % 256, Nat.mod_lt _ (by omega)⟩,
   ⟨v / 256 % 256, Nat.mod_lt _ (by omega)⟩,
   ⟨v / 65536 % 256, Nat.mod_lt _ (by omega)⟩,
   ⟨v / 16777216 % 256, Nat.mod_lt _ (by omega)⟩]

/-- Model of `NewGRF.read_a14` (recursive Action-14 info tree), structural on
an explicit fuel; one fuel unit per loop iteration and per `'C'` recursion. -/
def read_a14 : Nat → BinaryReader → List Byte → GRF → Except Err (Bool × BinaryReader × GRF)
  | 0, _, _, _ => .error .outOfFuel
  | fuel + 1, r, path, grf => do
    let (type_id, r) ← r.uint8
    if type_id = 0 then .ok (true, r, grf)
    else
      let p4 := r.read 4
      let subpath := path ++ p4.1
      let r := p4.2
      if type_id = 67 then
        match read_a14 fuel r subpath grf with
        | .error e => .error e
        | .ok (false, r, grf) => .ok (false, r, grf)
        | .ok (true, r, grf) => read_a14 fuel r path grf
      else if type_id = 66 then do
        let (size, r) ← r.uint16 false
        let pb := r.read size
        let r := pb.2
        let bdata := BinaryReader.mkPlain pb.1
        let st1 ← (if subpath = bstr "FIDMFTID" ∧ pyTruthyOpt grf.next_feature_map then do
            let (v, bdata') ← bdata.uint8
            .ok ({ grf with
                     feature_mapping := dictInsert grf.feature_mapping v (grf.next_feature_map.getD 0),
                     next_feature_map := none }, bdata')
          else .ok (grf, bdata))
        let grf := st1.1
        let bdata := st1.2
        let grf ← (if subpath = bstr "INFOVRSN" ∧ 4 ≤ size then do
            let (v, _) ← bdata.uint32 false
            .ok { grf with version := some v }
          else if subpath = bstr "INFOMINV" ∧ 4 ≤ size then do
            let (v, _) ← bdata.uint32 false
            .ok { grf with min_compatible_version := some v }
          else .ok grf)
        read_a14 fuel r path grf
      else if type_id = 84 then
        match r.uint8 with
        | .error e => .error e
        | .ok (grflangid, r) =>
          let ps := r.str
          let sdata := ps.1
          let r := ps.2
          let grf :=
            if subpath = bstr "FIDMNAME" then
              if pyBytesEqStr sdata "road_stops" then { grf with next_feature_map := some 0x14 }
              else grf
            else grf
          let grf :=
            if subpath = bstr "INFONAME" then grf.addText "STR_GRF_NAME" grflangid sdata
            else if subpath = bstr "INFODESC" then grf.addText "STR_GRF_DESCRIPTION" grflangid sdata
            else if subpath = bstr "INFOURL_" then grf.addText "STR_GRF_URL" grflangid sdata
            else if subpath.take 8 = bstr "INFOPARA" ∧ subpath.drop 12 = bstr "NAME" then
              grf.addText (str_param_name (leNat ((subpath.drop 8).take 4))) grflangid sdata
            else if subpath.take 8 = bstr "INFOPARA" ∧ subpath.drop 12 = bstr "DESC" then
              grf.addText (str_param_description (leNat ((subpath.drop 8).take 4))) grflangid sdata
            else grf
          read_a14 fuel r path grf
      else .ok (false, r, grf)

/-- Inner `while True` of Action 0 property 0x13/0x14: read (index byte,
zero-terminated name) pairs until index 0, appending into the nested table. -/
def genderPairs (k1 : Nat) : Nat → BinaryReader → List (Nat × List (Nat × List (List Byte))) →
    Except Err (List (Nat × List (Nat × List (List Byte))) × BinaryReader)
  | 0, _, _ => .error .outOfFuel
  | fuel + 1, r, m => do
    let (gi, r) ← r.uint8
    if gi = 0 then .ok (m, r)
    else
      let p := r.str
      genderPairs k1 fuel p.2 (mm2append m k1 gi p.1)

/-- Per-id loop of Action 0 property 0x13/0x14. -/
def genderIds : Nat → Nat → BinaryReader → List (Nat × List (Nat × List (List Byte))) →
    Except Err (List (Nat × List (Nat × List (List Byte))) × BinaryReader)
  | 0, _, r, m => .ok (m, r)
  | count + 1, cur, r, m => do
    let (m, r) ← genderPairs cur (r.input.length + 1) r m
    genderIds count (cur + 1) r m

/-- Per-id loop of Action 0 property 0x15 (plural codes). -/
def pluralIds : Nat → Nat → BinaryReader → List (Nat × Nat) →
    Except Err (List (Nat × Nat) × BinaryReader)
  | 0, _, r, m => .ok (m, r)
  | count + 1, cur, r, m => do
    let (v, r) ← r.uint8
    pluralIds count (cur + 1) r (dictInsert m cur v)

/-- Property loop of Action 0 for the GLOBAL feature; an unrecognized property
tag stops the loop without error. -/
def a0Props (first_id num_ids : Nat) : Nat → BinaryReader → GRF →
    Except Err (BinaryReader × GRF)
  | 0, r, grf => .ok (r, grf)
  | count + 1, r, grf => do
    let (prop, r) ← r.uint8
    if prop = 0x08 then a0Props first_id num_ids count (r.skip num_ids) grf
    else if prop = 0x10 then a0Props first_id num_ids count (r.skip (12 * 32 * num_ids)) grf
    else if prop = 0x0A ∨ prop = 0x0C ∨ prop = 0x0F then
      a0Props first_id num_ids count (r.skip (2 * num_ids)) grf
    else if prop = 0x09 ∨ prop = 0x0B ∨ prop = 0x0D ∨ prop = 0x0E ∨ prop = 0x12 ∨
        prop = 0x16 ∨ prop = 0x17 then
      a0Props first_id num_ids count (r.skip (4 * num_ids)) grf
    else if prop = 0x11 then a0Props first_id num_ids count (r.skip (8 * num_ids)) grf
    else if prop = 0x13 then do
      let (m, r) ← genderIds num_ids first_id r grf.genders
      a0Props first_id num_ids count r { grf with genders := m }
    else if prop = 0x14 then do
      let (m, r) ← genderIds num_ids first_id r grf.cases
      a0Props first_id num_ids count r { grf with cases := m }
    else if prop = 0x15 then do
      let (m, r) ← pluralIds num_ids first_id r grf.plurals
      a0Props first_id num_ids count r { grf with plurals := m }
    else .ok (r, grf)

/-- Per-id translation loop of Action 4. -/
def a4Ids (keyExt : Bool) (feat lang : Nat) : Nat → Nat → BinaryReader → GRF →
    Except Err (BinaryReader × GRF)
  | 0, _, r, grf => .ok (r, grf)
  | count + 1, cur, r, grf =>
    let p := r.str
    a4Ids keyExt feat lang count (cur + 1) p.2
      (grf.addText (if keyExt then str_ext cur else str_feature feat cur) lang p.1)

/-- Action 0x01 handler of `read_pseudo` (`r` is the payload reader positioned
after the action tag): discard one byte, read the naive set count, apply the
legacy zero-set-count fallback, read the entry count, return the product. -/
def action01 (pseudo : List Byte) (r : BinaryReader) : Except Err Nat := do
  let (_, r) ← r.uint8
  let (num_sets0, r) ← r.uint8
  let sres ← (if num_sets0 = 0 ∧ 3 ≤ pseudo.length - 3 then do
      let (_, r) ← r.uint_ext
      r.uint_ext
    else .ok (num_sets0, r))
  let (num_ent, _) ← sres.2.uint_ext
  .ok (sres.1 * num_ent)

/-- Per-set loop of Action 0x0A. -/
def aASets : Nat → BinaryReader → Nat → Except Err (Nat × BinaryReader)
  | 0, r, acc => .ok (acc, r)
  | count + 1, r, acc => do
    let (n, r) ← r.uint8
    aASets count (r.skip 2) (acc + n)

/-- Per-definition loop of Action 0x12. -/
def a12Defs : Nat → BinaryReader → Nat → Except Err (Nat × BinaryReader)
  | 0, r, acc => .ok (acc, r)
  | count + 1, r, acc => do
    let (n, r) ← (r.skip 1).uint8
    a12Defs count (r.skip 2) (acc + n)

/-- Model of `NewGRF.read_pseudo`: the action dispatcher over one pseudo-sprite
payload; returns the sprite-skip count and the updated state and metadata. -/
def read_pseudo (sprite_index : Nat) (pseudo : List Byte) (state : ParserState) (grf : GRF) :
    Except Err (Nat × ParserState × GRF) := do
  let reader := BinaryReader.mkPlain pseudo
  let (action, reader) ← reader.uint8
  if action = 0x00 then do
    let (feat0, r) ← reader.uint8
    let feat := (dictGet grf.feature_mapping feat0).getD feat0
    let (num_props, r) ← r.uint8
    let (num_ids, r) ← r.uint8
    if num_ids ≠ 0 then do
      let (first_id, r) ← r.uint_ext
      if feat = 0x08 then do
        let (_, grf) ← a0Props first_id num_ids num_props r grf
        .ok (0, state, grf)
      else .ok (0, state, grf)
    else .ok (0, state, grf)
  else if action = 0x01 then do
    let n ← action01 pseudo reader
    .ok (n, state, grf)
  else if action = 0x04 then do
    let (feat0, r) ← reader.uint8
    let feat := (dictGet grf.feature_mapping feat0).getD feat0
    let (lang_id, r) ← r.uint8
    let (num_ids, r) ← r.uint8
    if lang_id < 0x80 then do
      let (first_id, r) ← r.uint_ext
      let (_, grf) ← a4Ids false feat lang_id num_ids first_id r grf
      .ok (0, state, grf)
    else do
      let (first_id, r) ← r.uint16 false
      let (_, grf) ← a4Ids true feat (lang_id - 0x80) num_ids first_id r grf
      .ok (0, state, grf)
  else if action = 0x05 then do
    let (n, _) ← (reader.skip 1).uint_ext
    .ok (n, state, grf)
  else if action = 0x06 then
    .ok (0, { state with action6_effect := true }, grf)
  else if action = 0x07 ∨ action = 0x09 then
    .ok (0, { state with actionb_string := none }, grf)
  else if action = 0x08 then do
    let (gv, r) ← reader.uint8
    let (uid, r) ← r.uint32 false
    let p1 := r.str
    let p2 := p1.2.str
    let grf := { grf with grf_version := some gv, unique_id := some (leBytes4 uid) }
    let grf := grf.addText "STR_GRF_NAME" 0x7F p1.1
    let grf := grf.addText "STR_GRF_DESCRIPTION" 0x7F p2.1
    .ok (0, state, grf)
  else if action = 0x0A then do
    let (num_sets, r) ← reader.uint8
    let (n, _) ← aASets num_sets r 0
    .ok (n, state, grf)
  else if action = 0x0B then do
    let key := match state.actionb_string with
      | some k => k
      | none => str_error sprite_index
    let grf := if state.actionb_string = none then grf.ensureString (str_error sprite_index) else grf
    let (lang_id, r) ← (reader.skip 1).uint8
    let p := (r.skip 1).str
    let grf := if p.1 ≠ [] then grf.addText key lang_id p.1 else grf
    let state := { state with actionb_string := if lang_id = 0x7F then none else some key }
    .ok (0, state, grf)
  else if action = 0x11 then do
    let (n, _) ← reader.uint16 false
    .ok (n, state, grf)
  else if action = 0x12 then do
    let (num_defs, r) ← reader.uint8
    let (n, _) ← a12Defs num_defs r 0
    .ok (n, state, grf)
  else if action = 0x14 then do
    let (_, _, grf) ← read_a14 (2 * pseudo.length + 8) reader [] grf
    .ok (0, state, grf)
  else .ok (0, state, grf)

/-- Model of the container-v1 run-length sprite walk of `NewGRF.read`
(the inner `while size > 0` loop); `fuel` bounds the iteration count, and
`size + 1` always suffices because every chunk covers at least one output
byte. -/
def decodeSpriteV1 : Nat → BinaryReader → Nat → Except Err BinaryReader
  | 0, _, _ => .error .outOfFuel
  | fuel + 1, r, size =>
    if size = 0 then .ok r
    else do
      let (i, r) ← r.uint8
      if i < 0x80 then
        let i := if i = 0 then 0x80 else i
        let r := r.skip i
        if size < i then .error .failedSpriteDecoding
        else decodeSpriteV1 fuel r (size - i)
      else
        let i := 32 - (i >>> 3)
        let r := r.skip 1
        if size < i then .error .failedSpriteDecoding
        else decodeSpriteV1 fuel r (size - i)

/-- State of the record loop of `NewGRF.read`. -/
structure LoopState where
  reader : BinaryReader
  skip_sprites : Nat
  sprite_index : Nat
  state : ParserState
  grf : GRF
deriving DecidableEq, Repr

/-- One iteration of step 2 of `NewGRF.read` (everything between reading the
info byte and the advance of the sprite index, inclusive).  The second
component reports the dispatcher invocation of this step, if any, as
(sprite index, payload). -/
def containerStep (cv : Nat) (s : LoopState) (size : Nat) :
    Except Err (LoopState × Option (Nat × List Byte)) := do
  let (info, r) ← s.reader.uint8
  if info = 0xFF then
    if 0 < s.skip_sprites then
      .ok ({ s with reader := r.skip size,
                    skip_sprites := s.skip_sprites - 1,
                    sprite_index := s.sprite_index + 1,
                    state := { s.state with action6_effect := false } }, none)
    else
      let p := r.read size
      if s.sprite_index ≠ 0 then do
        let (n, st, grf) ← read_pseudo s.sprite_index p.1 s.state s.grf
        .ok (⟨p.2, n, s.sprite_index + 1, st, grf⟩, some (s.sprite_index, p.1))
      else
        .ok ({ s with reader := p.2, sprite_index := s.sprite_index + 1 }, none)
  else
    let st := { s.state with action6_effect := false }
    let sk := if 0 < s.skip_sprites then s.skip_sprites - 1 else s.skip_sprites
    if cv = 2 ∧ info = 0xFD then
      .ok ({ s with reader := r.skip size, skip_sprites := sk, state := st,
                    sprite_index := s.sprite_index + 1 }, none)
    else if cv = 1 ∧ 8 ≤ size then
      let r := r.skip 7
      let size := size - 8
      if info &&& 0x02 ≠ 0 then
        .ok ({ s with reader := r.skip size, skip_sprites := sk, state := st,
                      sprite_index := s.sprite_index + 1 }, none)
      else do
        let r ← decodeSpriteV1 (size + 1) r size
        .ok ({ s with reader := r, skip_sprites := sk, state := st,
                      sprite_index := s.sprite_index + 1 }, none)
    else .error .unknownInfoByte

/-- Record loop of `NewGRF.read` (step 2): run steps while the record length
is nonzero, reading the next length (16-bit for v1, 32-bit for v2) after each
record. -/
def recordLoop (cv : Nat) : Nat → LoopState → Nat → Except Err LoopState
  | 0, _, _ => .error .outOfFuel
  | fuel + 1, s, size =>
    if size = 0 then .ok s
    else do
      let (s', _) ← containerStep cv s size
      let (size', r') ← (if cv = 2 then s'.reader.uint32 false else s'.reader.uint16 false)
      recordLoop cv fuel { s' with reader := r' } size'

/-- Container-v2 trailer loop of `NewGRF.read` (step 3): (32-bit id, 32-bit
length, skip) blocks terminated by a zero id. -/
def v2Trailer : Nat → BinaryReader → Except Err BinaryReader
  | 0, _ => .error .outOfFuel
  | fuel + 1, r => do
    let (id, r) ← r.uint32 false
    if id = 0 then .ok r
    else do
      let (sz, r) ← r.uint32 false
      v2Trailer fuel (r.skip sz)

/-- Container-v2 magic signature `b"GRF\x82\r\n\x1a\n"`. -/
def grfMagic : List Byte := [0x47, 0x52, 0x46, 0x82, 0x0D, 0x0A, 0x1A, 0x0A]

/-- Result of one `NewGRF.read` call: the container version, the populated
metadata, the bytes fed to the md5 hash, and the reader position at the end
of the record loop (the boundary between record bytes and trailer bytes). -/
structure ReadResult where
  cv : Nat
  grf : GRF
  hashed : List Byte
  recEnd : Nat
deriving DecidableEq, Repr

/-- Step 1 of `NewGRF.read`: read the initial 16-bit length and detect the
container version; returns ((container version, first record length), reader). -/
def readHeader (r0 : BinaryReader) : Except Err ((Nat × Nat) × BinaryReader) := do
  let (size0, reader) ← r0.uint16 false
  if size0 = 0 then do
    let p := reader.read 8
    if p.1 = grfMagic then do
      let (_, r) ← p.2.uint32 false
      let (comp, r) ← r.uint8
      if comp ≠ 0 then .error .unknownCompression
      else do
        let (sz, r) ← r.uint32 false
        .ok ((2, sz), r)
    else .error .unknownContainer
  else .ok ((1, size0), reader)

/-- Container-v1 trailer of `NewGRF.read` (step 3 for v1): read one 16-bit
field, then best-effort read another two bytes (the Python `try` swallows a
short read, whose bytes are consumed and hashed all the same). -/
def readTrailerV1 (r : BinaryReader) : Except Err BinaryReader := do
  let (_, r) ← r.uint16 false
  .ok (r.read 2).2

/-- The record loop of `NewGRF.read`, started from the initial parser state
with the fuel that `recordLoop` is always run with (one unit per input byte
plus one, enough because every iteration consumes at least one byte). -/
def runRecords (cv : Nat) (input : List Byte) (r : BinaryReader) (size : Nat) :
    Except Err LoopState :=
  recordLoop cv (input.length + 1)
    ⟨r, 0, 0, ParserState.init, { GRF.init with container_version := some cv }⟩ size

/-- Model of `NewGRF.read`: container detection, record loop, v1 trailer
fields, hash detach, v2 trailer blocks, and the trailing-data check. -/
def NewGRF_read (input : List Byte) : Except Err ReadResult := do
  let hdr ← readHeader (BinaryReader.mkHashed input)
  let cv := hdr.1.1
  let sEnd ← runRecords cv input hdr.2 hdr.1.2
  let recEnd := sEnd.reader.pos
  let r := sEnd.reader
  let r ← (if cv = 1 then readTrailerV1 r else .ok r)
  let r := r.detach_hash
  let r ← (if cv = 2 then v2Trailer (input.length + 1) r else .ok r)
  match r.uint8 with
  | .error _ => .ok ⟨cv, sEnd.grf, r.hashed, recEnd⟩
  | .ok _ => .error .junkAtEnd

/-!
Definitions written from the claims and the spec, for comparison with the
definitions translated from the source.
-/

/-- Sprite walk exactly as claim C1 words it: a control byte with the high
bit set is a back-reference whose length is 32 minus the LOW five bits of the
control byte.  Everything else follows the source walk. -/
def decodeSpriteV1_claim : Nat → BinaryReader → Nat → Except Err BinaryReader
  | 0, _, _ => .error .outOfFuel
  | fuel + 1, r, size =>
    if size = 0 then .ok r
    else do
      let (i, r) ← r.uint8
      if i < 0x80 then
        let i := if i = 0 then 0x80 else i
        let r := r.skip i
        if size < i then .error .failedSpriteDecoding
        else decodeSpriteV1_claim fuel r (size - i)
      else
        let i := 32 - (i &&& 0x1F)
        let r := r.skip 1
        if size < i then .error .failedSpriteDecoding
        else decodeSpriteV1_claim fuel r (size - i)

/-- Modelled from the spec, amended for C1: the run-length walk in which a
control byte with the high bit clear is a literal skip of that many bytes
(0 reinterpreted as 128), a control byte with the high bit set is a
back-reference of length 32 minus the value of its high five bits (the byte
shifted right by three) consuming one further offset byte, and the walk fails
with the fatal sprite-decoding error unless the chunk lengths consume the
declared size exactly. -/
def decodeSpriteV1_spec : Nat → BinaryReader → Nat → Except Err BinaryReader
  | 0, _, _ => .error .outOfFuel
  | fuel + 1, r, size =>
    if size = 0 then .ok r
    else do
      let (i, r) ← r.uint8
      if i &&& 0x80 = 0 then
        let len := if i = 0 then 0x80 else i
        let r := r.skip len
        if size < len then .error .failedSpriteDecoding
        else decodeSpriteV1_spec fuel r (size - len)
      else
        let len := 32 - i / 8
        let r := r.skip 1
        if size < len then .error .failedSpriteDecoding
        else decodeSpriteV1_spec fuel r (size - len)

/-- Action 0x01 handler exactly as claim C9 words it: discard one byte, read
the naive set count, and when it is zero with at least 3 payload bytes beyond
the 3 already consumed, re-read the counts as consecutive extended-byte
values from the current position. -/
def action01_claim (pseudo : List Byte) : Except Err Nat := do
  let (_, r) ← (BinaryReader.mkPlain pseudo).uint8
  let (_, r) ← r.uint8
  let (num_sets0, r) ← r.uint8
  let sres ← (if num_sets0 = 0 ∧ 3 ≤ pseudo.length - 3 then r.uint_ext
    else .ok (num_sets0, r))
  let (num_ent, _) ← sres.2.uint_ext
  .ok (sres.1 * num_ent)

/-- Modelled from the spec, amended for C9: in the legacy fallback (naive set
count zero and payload at least 6 bytes long) the handler first skips one
extended-byte field (the first-set id of the extended Action 1 layout) and
only then re-reads the set count as an extended byte; the entry count is read
as an extended byte in both paths, and the product is returned. -/
def action01_spec (pseudo : List Byte) (r : BinaryReader) : Except Err Nat := do
  let (_, r) ← r.uint8
  let (num_sets0, r) ← r.uint8
  let sres ← (if num_sets0 = 0 ∧ 6 ≤ pseudo.length then do
      let (_, r) ← r.uint_ext
      r.uint_ext
    else .ok (num_sets0, r))
  let (num_ent, _) ← sres.2.uint_ext
  .ok (sres.1 * num_ent)

/-- Modelled from the spec, for C4: `read_a14` as the spec intends it, where
the `'T'` leaf at the vendor feature-map name path compares the decoded byte
string against the byte spelling of the sentinel `road_stops` (instead of the
always-false cross-type comparison the source performs). -/
def read_a14_spec : Nat → BinaryReader → List Byte → GRF → Except Err (Bool × BinaryReader × GRF)
  | 0, _, _, _ => .error .outOfFuel
  | fuel + 1, r, path, grf => do
    let (type_id, r) ← r.uint8
    if type_id = 0 then .ok (true, r, grf)
    else
      let p4 := r.read 4
      let subpath := path ++ p4.1
      let r := p4.2
      if type_id = 67 then
        match read_a14_spec fuel r subpath grf with
        | .error e => .error e
        | .ok (false, r, grf) => .ok (false, r, grf)
        | .ok (true, r, grf) => read_a14_spec fuel r path grf
      else if type_id = 66 then do
        let (size, r) ← r.uint16 false
        let pb := r.read size
        let r := pb.2
        let bdata := BinaryReader.mkPlain pb.1
        let st1 ← (if subpath = bstr "FIDMFTID" ∧ pyTruthyOpt grf.next_feature_map then do
            let (v, bdata') ← bdata.uint8
            .ok ({ grf with
                     feature_mapping := dictInsert grf.feature_mapping v (grf.next_feature_map.getD 0),
                     next_feature_map := none }, bdata')
          else .ok (grf, bdata))
        let grf := st1.1
        let bdata := st1.2
        let grf ← (if subpath = bstr "INFOVRSN" ∧ 4 ≤ size then do
            let (v, _) ← bdata.uint32 false
            .ok { grf with version := some v }
          else if subpath = bstr "INFOMINV" ∧ 4 ≤ size then do
            let (v, _) ← bdata.uint32 false
            .ok { grf with min_compatible_version := some v }
          else .ok grf)
        read_a14_spec fuel r path grf
      else if type_id = 84 then
        match r.uint8 with
        | .error e => .error e
        | .ok (grflangid, r) =>
          let ps := r.str
          let sdata := ps.1
          let r := ps.2
          let grf :=
            if subpath = bstr "FIDMNAME" then
              if sdata = bstr "road_stops" then { grf with next_feature_map := some 0x14 }
              else grf
            else grf
          let grf :=
            if subpath = bstr "INFONAME" then grf.addText "STR_GRF_NAME" grflangid sdata
            else if subpath = bstr "INFODESC" then grf.addText "STR_GRF_DESCRIPTION" grflangid sdata
            else if subpath = bstr "INFOURL_" then grf.addText "STR_GRF_URL" grflangid sdata
            else if subpath.take 8 = bstr "INFOPARA" ∧ subpath.drop 12 = bstr "NAME" then
              grf.addText (str_param_name (leNat ((subpath.drop 8).take 4))) grflangid sdata
            else if subpath.take 8 = bstr "INFOPARA" ∧ subpath.drop 12 = bstr "DESC" then
              grf.addText (str_param_description (leNat ((subpath.drop 8).take 4))) grflangid sdata
            else grf
          read_a14_spec fuel r path grf
      else .ok (false, r, grf)

/-- Underflow test matching the claim C8 reading: some declared width exceeds
the number of slots still held when it is consumed. -/
def underflows : Nat → List Nat → Bool
  | _, [] => false
  | n, w :: ws => if n < w then true else underflows (n - w) ws

/-- Modelled from the spec, for C6: the 1-to-5-byte gamma encoding of an
unsigned value, choosing the shortest length class of section 4.1 (the
repository only decodes gamma values; values 2^35 and above have no
encoding). -/
def gammaEncode (v : Nat) : Option (List Byte) :=
  if h1 : v < 0x80 then some [⟨v, by omega⟩]
  else if h2 : v < 0x4000 then
    some [⟨0x80 + v / 0x100, by omega⟩, ⟨v % 0x100, by omega⟩]
  else if h3 : v < 0x200000 then
    some [⟨0xC0 + v / 0x10000, by omega⟩, ⟨v / 0x100 % 0x100, by omega⟩, ⟨v % 0x100, by omega⟩]
  else if h4 : v < 0x10000000 then
    some [⟨0xE0 + v / 0x1000000, by omega⟩, ⟨v / 0x10000 % 0x100, by omega⟩,
          ⟨v / 0x100 % 0x100, by omega⟩, ⟨v % 0x100, by omega⟩]
  else if h5 : v < 0x800000000 then
    some [⟨0xF0 + v / 0x100000000, by omega⟩, ⟨v / 0x1000000 % 0x100, by omega⟩,
          ⟨v / 0x10000 % 0x100, by omega⟩, ⟨v / 0x100 % 0x100, by omega⟩, ⟨v % 0x100, by omega⟩]
  else none

/-- Length class (1..5) implied by the prefix bits of a first gamma byte;
0 for the invalid 11111xxx prefix. -/
def gammaClass (b : Nat) : Nat :=
  if b &&& 0x80 = 0 then 1
  else if b &&& 0xC0 = 0x80 then 2
  else if b &&& 0xE0 = 0xC0 then 3
  else if b &&& 0xF0 = 0xE0 then 4
  else if b &&& 0xF8 = 0xF0 then 5
  else 0

/-!
Supporting lemmas.
-/

lemma exists_eight {α : Type} (l : List α) (h : 8 ≤ l.length) :
    ∃ a b c d e f g hh t, l = a :: b :: c :: d :: e :: f :: g :: hh :: t := by
  rcases l with _ | ⟨a, _ | ⟨b, _ | ⟨c, _ | ⟨d, _ | ⟨e, _ | ⟨f, _ | ⟨g, _ | ⟨hh, t⟩⟩⟩⟩⟩⟩⟩⟩ <;>
    first
      | exact ⟨_, _, _, _, _, _, _, _, _, rfl⟩
      | (simp at h)

lemma rotateWordsList_cons (a b c d e f g hh : Int) (t : List Int) :
    rotateWordsList (a :: b :: c :: d :: e :: f :: g :: hh :: t) =
      g :: hh :: a :: b :: c :: d :: e :: f :: t := by
  simp [rotateWordsList]

/-!
Claim C7.
-/

/-- C7: the RotateWords operation on a ParamStack holding at least 8 slots
moves the slots at positions 6 and 7 to the front and shifts positions 0..5
back by two (leaving the rest unchanged), and applying the operation four
times restores the original stack state. -/
theorem rotate_words_cycle (st : TextRefStack) (h : 8 ≤ st.stack_index.length) :
    (∃ st1, st.rotate_words = .ok st1 ∧
        st1.stack_index.take 8 = (st.stack_index.drop 6).take 2 ++ st.stack_index.take 6 ∧
        st1.stack_index.drop 8 = st.stack_index.drop 8 ∧
        st1.commands = st.commands) ∧
    (st.rotate_words >>= TextRefStack.rotate_words >>= TextRefStack.rotate_words >>=
        TextRefStack.rotate_words) = .ok st := by
  obtain ⟨si, cmds⟩ := st
  simp only at h
  obtain ⟨a, b, c, d, e, f, g, hh, t, hl⟩ := exists_eight si h
  subst hl
  constructor
  · refine ⟨⟨g :: hh :: a :: b :: c :: d :: e :: f :: t, cmds⟩, ?_, ?_, ?_, rfl⟩
    · simp [TextRefStack.rotate_words, rotateWordsList_cons]
    · simp
    · simp
  · simp [TextRefStack.rotate_words, rotateWordsList_cons, Bind.bind, Except.bind]

/-!
Claim C8.
-/

lemma consumeParams_spec (ws : List Nat) (hw : ∀ w ∈ ws, 0 < w) :
    ∀ (stack : List Int) (acc : List StackParam),
      (underflows stack.length ws = true ∧ consumeParams stack ws acc = .error .assertionError) ∨
      (underflows stack.length ws = false ∧
        ∃ stack' ps, consumeParams stack ws acc = .ok (stack', ps) ∧
          ws.sum ≤ stack.length ∧ stack'.length = stack.length - ws.sum) := by
  induction ws with
  | nil =>
    intro stack acc
    right
    exact ⟨rfl, stack, acc, rfl, by simp, by simp⟩
  | cons w ws ih =>
    intro stack acc
    have hwpos : 0 < w := hw w (by simp)
    have hw' : ∀ x ∈ ws, 0 < x := fun x hx => hw x (by simp [hx])
    by_cases hlt : stack.length < w
    · left
      refine ⟨by simp [underflows, hlt], ?_⟩
      unfold consumeParams
      rw [if_pos hlt]
    · cases stack with
      | nil => simp at hlt; omega
      | cons s0 srest =>
        have heq : consumeParams (s0 :: srest) (w :: ws) acc =
            consumeParams ((s0 :: srest).drop w) ws (acc ++ [⟨s0, w⟩]) := by
          conv_lhs => unfold consumeParams
          rw [if_neg hlt]
        have hdl : ((s0 :: srest).drop w).length = (s0 :: srest).length - w := by
          simp
        rcases ih hw' ((s0 :: srest).drop w) (acc ++ [⟨s0, w⟩]) with
          ⟨hu, he⟩ | ⟨hu, stack', ps, hok, hsum, hlen⟩
        · left
          refine ⟨?_, by rw [heq]; exact he⟩
          simp only [underflows, if_neg hlt]
          rw [← hdl]
          exact hu
        · right
          refine ⟨?_, stack', ps, by rw [heq]; exact hok, ?_, ?_⟩
          · simp only [underflows, if_neg hlt]
            rw [← hdl]
            exact hu
          · rw [hdl] at hsum
            simp only [List.sum_cons, List.length_cons] at hsum ⊢
            simp only [List.length_cons] at hlt
            omega
          · rw [hlen, hdl]
            simp only [List.sum_cons, List.length_cons] at hlt ⊢
            omega

/-- C8: a Standard-variant control code fails (rather than clamping) exactly
when some declared stack width exceeds the held slot count at the moment it is
consumed; on success exactly the declared total is removed, never more than
was present; and RotateWords on fewer than 8 slots fails. -/
theorem paramstack_underflow_safety (st : TextRefStack) (cc : ControlCode)
    (hw : ∀ w ∈ cc.stack_param_size, 0 < w) :
    ((∃ e, st.standard_command cc = .error e) ↔
        underflows st.stack_index.length cc.stack_param_size = true) ∧
    (∀ st', st.standard_command cc = .ok st' →
        cc.stack_param_size.sum ≤ st.stack_index.length ∧
        st'.stack_index.length = st.stack_index.length - cc.stack_param_size.sum) ∧
    (st.stack_index.length < 8 → st.rotate_words = .error .assertionError) := by
  have hrot : st.stack_index.length < 8 → st.rotate_words = .error .assertionError := by
    intro hlen
    unfold TextRefStack.rotate_words
    rw [if_neg (by omega)]
  by_cases hg : cc.inline_param_size ≠ 0 ∨ cc.stack_param_size ≠ []
  · have hcs := consumeParams_spec cc.stack_param_size hw st.stack_index []
    rcases hcs with ⟨hu, he⟩ | ⟨hu, stack', ps, hok, hsum, hlen⟩
    · refine ⟨?_, ?_, hrot⟩
      · constructor
        · intro _; exact hu
        · intro _
          exact ⟨.assertionError, by simp [TextRefStack.standard_command, hg, he, Bind.bind, Except.bind]⟩
      · intro st' hok
        simp [TextRefStack.standard_command, hg, he, Bind.bind, Except.bind] at hok
    · refine ⟨?_, ?_, hrot⟩
      · constructor
        · intro ⟨e, hee⟩
          simp [TextRefStack.standard_command, hg, hok, Bind.bind, Except.bind] at hee
        · intro habs
          rw [hu] at habs
          simp at habs
      · intro st' hok'
        simp only [TextRefStack.standard_command, if_pos hg, hok, Bind.bind, Except.bind] at hok'
        simp at hok'
        rw [← hok']
        exact ⟨hsum, hlen⟩
  · have hempty : cc.stack_param_size = [] := by
      by_cases h1 : cc.stack_param_size = []
      · exact h1
      · exact absurd (Or.inr h1) hg
    refine ⟨?_, ?_, hrot⟩
    · constructor
      · intro ⟨e, hee⟩
        simp [TextRefStack.standard_command, hg, Bind.bind, Except.bind] at hee
      · intro habs
        rw [hempty] at habs
        simp [underflows] at habs
    · intro st' hok
      simp [TextRefStack.standard_command, hg, Bind.bind, Except.bind] at hok
      rw [← hok, hempty]
      simp

/-- Witness for C7 at the fresh 64-slot stack. -/
theorem rotate_words_cycle_witness :
    (∃ st1, TextRefStack.init.rotate_words = .ok st1 ∧
        st1.stack_index.take 8 =
          (TextRefStack.init.stack_index.drop 6).take 2 ++ TextRefStack.init.stack_index.take 6 ∧
        st1.stack_index.drop 8 = TextRefStack.init.stack_index.drop 8 ∧
        st1.commands = TextRefStack.init.commands) ∧
    (TextRefStack.init.rotate_words >>= TextRefStack.rotate_words >>= TextRefStack.rotate_words >>=
        TextRefStack.rotate_words) = .ok TextRefStack.init :=
  rotate_words_cycle TextRefStack.init (by decide)

/-- Witness for C8 at the fresh 64-slot stack and the 0x7B table entry
(COMMA with one declared 4-byte stack parameter). -/
theorem paramstack_underflow_safety_witness :
    ((∃ e, TextRefStack.init.standard_command ((dictGet CTRL_CODES 0x7B).getD ControlCode.default) =
          .error e) ↔
        underflows TextRefStack.init.stack_index.length
          ((dictGet CTRL_CODES 0x7B).getD ControlCode.default).stack_param_size = true) ∧
    (∀ st', TextRefStack.init.standard_command ((dictGet CTRL_CODES 0x7B).getD ControlCode.default) =
          .ok st' →
        ((dictGet CTRL_CODES 0x7B).getD ControlCode.default).stack_param_size.sum ≤
          TextRefStack.init.stack_index.length ∧
        st'.stack_index.length = TextRefStack.init.stack_index.length -
          ((dictGet CTRL_CODES 0x7B).getD ControlCode.default).stack_param_size.sum) ∧
    (TextRefStack.init.stack_index.length < 8 →
        TextRefStack.init.rotate_words = .error .assertionError) :=
  paramstack_underflow_safety TextRefStack.init
    ((dictGet CTRL_CODES 0x7B).getD ControlCode.default) (by decide)

/-!
Claim C4.
-/

/-- Concrete Action-14 pseudo-sprite payload: a 'C' node at path FIDM
containing a 'T' leaf at FIDMNAME with text road_stops and a 'B' leaf at
FIDMFTID whose one-byte blob is 0x05. -/
def c4payload : List Byte :=
  [0x14, 0x43, 0x46, 0x49, 0x44, 0x4D,
   0x54, 0x4E, 0x41, 0x4D, 0x45, 0x7F,
   0x72, 0x6F, 0x61, 0x64, 0x5F, 0x73, 0x74, 0x6F, 0x70, 0x73, 0x00,
   0x42, 0x46, 0x54, 0x49, 0x44, 0x01, 0x00, 0x05,
   0x00, 0x00]

/-- C4 (code bug): on a payload carrying the road_stops sentinel at the
vendor feature-map name path followed by a 'B' leaf at the feature-map id
path, the source never arms the pending FeatureMapping entry — the comparison
of the byte string returned by `reader.str()` with the `str` literal is the
always-false Python 3 cross-type equality — so the mapping stays empty, while
the spec-modelled comparison by content arms the entry and commits blob byte
0x05 to the road-stop feature 0x14. -/
theorem road_stops_mapping_never_armed :
    (read_pseudo 1 c4payload ParserState.init GRF.init).map
        (fun x => (x.2.2.feature_mapping, x.2.2.next_feature_map)) = .ok ([], none) ∧
    (read_a14_spec (2 * c4payload.length + 8) ⟨c4payload, 1, [], false⟩ [] GRF.init).map
        (fun x => x.2.2.feature_mapping) = .ok [(0x05, 0x14)] := by
  constructor
  · decide
  · decide

/-!
Claim C9.
-/

/-- Concrete Action-1 payload triggering the legacy zero-set-count fallback:
tag 0x01, a discarded byte, naive set count 0, then the extended-byte fields
2, 3, 5. -/
def c9payload : List Byte := [0x01, 0x00, 0x00, 0x02, 0x03, 0x05]

/-- C9 counterexample: on `c9payload` the dispatcher returns 15 (it skips the
extended first-set field 2 and reads set count 3 and entry count 5), while the
claim's literal fallback (re-read the two counts from the current position)
yields 6 (2 × 3). -/
theorem action01_claim_cex :
    (read_pseudo 7 c9payload ParserState.init GRF.init).map (fun x => x.1) = .ok 15 ∧
    action01_claim c9payload = .ok 6 ∧ (15 : Nat) ≠ 6 := by
  refine ⟨by decide, by decide, by decide⟩

/-- C9 (amended): for every payload and reader position the Action 1 handler
behaves exactly as the amended description, including skipping the extended
first-set field before re-reading the set count in the legacy fallback. -/
theorem action01_amended (pseudo : List Byte) (r : BinaryReader) :
    action01 pseudo r = action01_spec pseudo r := by
  have hcond : (3 ≤ pseudo.length - 3) ↔ (6 ≤ pseudo.length) := by omega
  unfold action01 action01_spec
  cases h2 : r.uint8 with
  | error e => rfl
  | ok p2 =>
    simp only [Bind.bind, Except.bind]
    cases h3 : p2.2.uint8 with
    | error e => rfl
    | ok p3 =>
      dsimp only
      by_cases hz : p3.1 = 0 ∧ 3 ≤ pseudo.length - 3
      · rw [if_pos hz, if_pos ⟨hz.1, hcond.mp hz.2⟩]
      · rw [if_neg hz, if_neg (fun hcc => hz ⟨hcc.1, hcond.mpr hcc.2⟩)]

/-!
Claim C1.
-/

lemma uint8_lt {r r' : BinaryReader} {v : Nat} (h : r.uint8 = .ok (v, r')) : v < 256 := by
  unfold BinaryReader.uint8 at h
  split at h
  · next b r2 heq =>
    simp at h
    omega
  · simp at h

set_option maxRecDepth 4096 in
lemma byte_and80_iff : ∀ b : Fin 256, (b.val &&& 0x80 = 0 ↔ b.val < 0x80) := by decide

/-- C1 counterexample: on the stream starting with control byte 0x88 and a
budget of 15 output bytes, the source walk decodes a back-reference of length
32 − (0x88 >> 3) = 15 and succeeds, while the claim's low-five-bits reading
prescribes length 32 − 8 = 24 and the fatal sprite-decoding error. -/
theorem sprite_walk_low5_cex :
    decodeSpriteV1 16 ⟨[0x88, 0x00], 0, [], false⟩ 15 = .ok ⟨[0x88, 0x00], 2, [], false⟩ ∧
    decodeSpriteV1_claim 16 ⟨[0x88, 0x00], 0, [], false⟩ 15 = .error .failedSpriteDecoding := by
  constructor
  · decide
  · decide

/-- C1 (amended): for every fuel, reader and declared size the source's
run-length skip walk coincides with the amended specification walk: literal
skips for control bytes with the high bit clear (0 reinterpreted as 128),
back-references of length 32 minus the high five bits (the byte shifted right
by three) consuming one further offset byte, and the fatal sprite-decoding
error unless the chunks consume the declared size exactly. -/
theorem sprite_walk_spec_eq : ∀ (fuel : Nat) (r : BinaryReader) (size : Nat),
    decodeSpriteV1 fuel r size = decodeSpriteV1_spec fuel r size := by
  intro fuel
  induction fuel with
  | zero => intro r size; rfl
  | succ n ih =>
    intro r size
    unfold decodeSpriteV1 decodeSpriteV1_spec
    by_cases hs : size = 0
    · rw [if_pos hs, if_pos hs]
    · rw [if_neg hs, if_neg hs]
      simp only [Bind.bind, Except.bind]
      cases hb : r.uint8 with
      | error e => rfl
      | ok p =>
        dsimp only
        have hlt : p.1 < 256 := by
          rcases p with ⟨v, r2⟩
          exact uint8_lt hb
        by_cases hbit : p.1 < 0x80
        · rw [if_pos hbit, if_pos ((byte_and80_iff ⟨p.1, hlt⟩).mpr hbit)]
          by_cases hc : size < (if p.1 = 0 then 0x80 else p.1)
          · rw [if_pos hc, if_pos hc]
          · rw [if_neg hc, if_neg hc, ih]
        · rw [if_neg hbit, if_neg (fun habs => hbit ((byte_and80_iff ⟨p.1, hlt⟩).mp habs))]
          have hdiv : p.1 >>> 3 = p.1 / 8 := by
            rw [Nat.shiftRight_eq_div_pow]
          rw [hdiv]
          by_cases hc : size < 32 - p.1 / 8
          · rw [if_pos hc, if_pos hc]
          · rw [if_neg hc, if_neg hc, ih]

/-!
Claim C6.
-/

lemma lor_shift_add (a k b : Nat) (h : b < 2 ^ k) : (a <<< k) ||| b = a * 2 ^ k + b := by
  have hx : ((a <<< k) ||| b) >>> k = a := by
    apply Nat.eq_of_testBit_eq
    intro i
    rw [Nat.testBit_shiftRight, Nat.testBit_lor, Nat.testBit_shiftLeft]
    have hb : b.testBit (k + i) = false :=
      Nat.testBit_eq_false_of_lt (lt_of_lt_of_le h (Nat.pow_le_pow_right (by omega) (by omega)))
    simp [hb, Nat.add_sub_cancel_left]
  have hm : ((a <<< k) ||| b) % 2 ^ k = b := by
    apply Nat.eq_of_testBit_eq
    intro i
    rw [Nat.testBit_mod_two_pow, Nat.testBit_lor, Nat.testBit_shiftLeft]
    by_cases hik : i < k
    · simp [hik, Nat.not_le.mpr hik]
    · have hb : b.testBit i = false :=
        Nat.testBit_eq_false_of_lt (lt_of_lt_of_le h (Nat.pow_le_pow_right (by omega) (by omega)))
      simp [hik, hb]
  have hdiv : ((a <<< k) ||| b) / 2 ^ k = a := by rw [← Nat.shiftRight_eq_div_pow]; exact hx
  calc (a <<< k) ||| b
      = 2 ^ k * (((a <<< k) ||| b) / 2 ^ k) + ((a <<< k) ||| b) % 2 ^ k :=
        (Nat.div_add_mod _ _).symm
    _ = 2 ^ k * a + b := by rw [hdiv, hm]
    _ = a * 2 ^ k + b := by rw [Nat.mul_comm]

set_option maxRecDepth 8192 in
lemma gamma_mask1 : ∀ x : Fin 128, x.val &&& 0x80 = 0 ∧ x.val &&& 0x7F = x.val := by decide

set_option maxRecDepth 8192 in
lemma gamma_mask2 : ∀ x : Fin 64,
    ¬((128 + x.val) &&& 0x80 = 0) ∧ (128 + x.val) &&& 0xC0 = 0x80 ∧
    (128 + x.val) &&& 0x3F = x.val := by decide

set_option maxRecDepth 8192 in
lemma gamma_mask3 : ∀ x : Fin 32,
    ¬((192 + x.val) &&& 0x80 = 0) ∧ ¬((192 + x.val) &&& 0xC0 = 0x80) ∧
    (192 + x.val) &&& 0xE0 = 0xC0 ∧ (192 + x.val) &&& 0x1F = x.val := by decide

set_option maxRecDepth 8192 in
lemma gamma_mask4 : ∀ x : Fin 16,
    ¬((224 + x.val) &&& 0x80 = 0) ∧ ¬((224 + x.val) &&& 0xC0 = 0x80) ∧
    ¬((224 + x.val) &&& 0xE0 = 0xC0) ∧ (224 + x.val) &&& 0xF0 = 0xE0 ∧
    (224 + x.val) &&& 0x0F = x.val := by decide

set_option maxRecDepth 8192 in
lemma gamma_mask5 : ∀ x : Fin 8,
    ¬((240 + x.val) &&& 0x80 = 0) ∧ ¬((240 + x.val) &&& 0xC0 = 0x80) ∧
    ¬((240 + x.val) &&& 0xE0 = 0xC0) ∧ ¬((240 + x.val) &&& 0xF0 = 0xE0) ∧
    (240 + x.val) &&& 0xF8 = 0xF0 ∧ (240 + x.val) &&& 0x07 = x.val := by decide

set_option maxRecDepth 8192 in
lemma gamma_mask_invalid : ∀ b : Fin 256, b.val &&& 0xF8 = 0xF8 →
    ¬(b.val &&& 0x80 = 0) ∧ ¬(b.val &&& 0xC0 = 0x80) ∧ ¬(b.val &&& 0xE0 = 0xC0) ∧
    ¬(b.val &&& 0xF0 = 0xE0) ∧ ¬(b.val &&& 0xF8 = 0xF0) := by decide

/-- C6: decoding the gamma encoding of any encodable value recovers the value,
the decoder's consumed-byte count equals the encoding length, which equals the
length class implied by the prefix bits of the first byte; and a first byte
with prefix pattern 11111xxx makes the decoder fail with the invalid gamma
encoding error. -/
theorem gamma_roundtrip_class :
    (∀ (v : Nat) (bs rest : List Byte), gammaEncode v = some bs →
        ((BinaryReader.mkPlain (bs ++ rest)).gamma).map Prod.fst = .ok (v, bs.length) ∧
        bs.length = gammaClass (bs.headD 0).val) ∧
    (∀ (b : Byte) (rest : List Byte), b.val &&& 0xF8 = 0xF8 →
        (BinaryReader.mkPlain (b :: rest)).gamma = .error .invalidGamma) := by
  constructor
  · intro v bs rest h
    unfold gammaEncode at h
    split_ifs at h with h1 h2 h3 h4 h5
    · -- 1-byte class
      injection h with hbs
      subst hbs
      have hm := gamma_mask1 ⟨v, h1⟩
      have e1 : (BinaryReader.mkPlain ((⟨v, by omega⟩ : Byte) :: rest)).uint8 =
          .ok (v, ⟨(⟨v, by omega⟩ : Byte) :: rest, 1, [], false⟩) := by
        simp [BinaryReader.mkPlain, BinaryReader.uint8, BinaryReader.read]
      constructor
      · unfold BinaryReader.gamma
        simp only [List.cons_append, List.nil_append]
        rw [e1]
        simp only [Bind.bind, Except.bind]
        dsimp only
        rw [if_pos hm.1, hm.2]
        rfl
      · simp only [List.headD, List.length_cons, List.length_nil]
        unfold gammaClass
        rw [if_pos hm.1]
    · -- 2-byte class
      injection h with hbs
      subst hbs
      have hx : v / 256 < 64 := by omega
      have hm := gamma_mask2 ⟨v / 256, hx⟩
      have e1 : (BinaryReader.mkPlain ((⟨0x80 + v / 0x100, by omega⟩ : Byte) ::
          (⟨v % 0x100, by omega⟩ : Byte) :: rest)).uint8 =
          .ok (0x80 + v / 0x100, ⟨(⟨0x80 + v / 0x100, by omega⟩ : Byte) ::
            (⟨v % 0x100, by omega⟩ : Byte) :: rest, 1, [], false⟩) := by
        simp [BinaryReader.mkPlain, BinaryReader.uint8, BinaryReader.read]
      have e2 : (⟨(⟨0x80 + v / 0x100, by omega⟩ : Byte) :: (⟨v % 0x100, by omega⟩ : Byte) :: rest,
          1, [], false⟩ : BinaryReader).uint8 =
          .ok (v % 0x100, ⟨(⟨0x80 + v / 0x100, by omega⟩ : Byte) ::
            (⟨v % 0x100, by omega⟩ : Byte) :: rest, 2, [], false⟩) := by
        simp [BinaryReader.uint8, BinaryReader.read]
      constructor
      · unfold BinaryReader.gamma
        simp only [List.cons_append, List.nil_append]
        rw [e1]
        simp only [Bind.bind, Except.bind]
        dsimp only
        rw [if_neg hm.1, if_pos hm.2.1, e2]
        dsimp only
        rw [hm.2.2]
        have hv : (v / 256) <<< 8 ||| v % 0x100 = v := by
          rw [lor_shift_add _ 8 _ (by omega)]
          omega
        rw [hv]
        rfl
      · simp only [List.headD, List.length_cons, List.length_nil]
        unfold gammaClass
        rw [if_neg hm.1, if_pos hm.2.1]
    · -- 3-byte class
      injection h with hbs
      subst hbs
      have hx : v / 0x10000 < 32 := by omega
      have hm := gamma_mask3 ⟨v / 0x10000, hx⟩
      have e1 : (BinaryReader.mkPlain ((⟨0xC0 + v / 0x10000, by omega⟩ : Byte) ::
          (⟨v / 0x100 % 0x100, by omega⟩ : Byte) :: (⟨v % 0x100, by omega⟩ : Byte) :: rest)).uint8 =
          .ok (0xC0 + v / 0x10000, ⟨(⟨0xC0 + v / 0x10000, by omega⟩ : Byte) ::
            (⟨v / 0x100 % 0x100, by omega⟩ : Byte) :: (⟨v % 0x100, by omega⟩ : Byte) :: rest,
            1, [], false⟩) := by
        simp [BinaryReader.mkPlain, BinaryReader.uint8, BinaryReader.read]
      have e2 : (⟨(⟨0xC0 + v / 0x10000, by omega⟩ : Byte) ::
          (⟨v / 0x100 % 0x100, by omega⟩ : Byte) :: (⟨v % 0x100, by omega⟩ : Byte) :: rest,
          1, [], false⟩ : BinaryReader).uint16 true =
          .ok (v / 0x100 % 0x100 * 256 + v % 0x100, ⟨(⟨0xC0 + v / 0x10000, by omega⟩ : Byte) ::
            (⟨v / 0x100 % 0x100, by omega⟩ : Byte) :: (⟨v % 0x100, by omega⟩ : Byte) :: rest,
            3, [], false⟩) := by
        simp [BinaryReader.uint16, BinaryReader.read]
      constructor
      · unfold BinaryReader.gamma
        simp only [List.cons_append, List.nil_append]
        rw [e1]
        simp only [Bind.bind, Except.bind]
        dsimp only
        rw [if_neg hm.1, if_neg hm.2.1, if_pos hm.2.2.1, e2]
        dsimp only
        rw [hm.2.2.2]
        have hv : (v / 0x10000) <<< 16 ||| (v / 0x100 % 0x100 * 256 + v % 0x100) = v := by
          rw [lor_shift_add _ 16 _ (by omega)]
          omega
        rw [hv]
        rfl
      · simp only [List.headD, List.length_cons, List.length_nil]
        unfold gammaClass
        rw [if_neg hm.1, if_neg hm.2.1, if_pos hm.2.2.1]
    · -- 4-byte class
      injection h with hbs
      subst hbs
      have hx : v / 0x1000000 < 16 := by omega
      have hm := gamma_mask4 ⟨v / 0x1000000, hx⟩
      have e1 : (BinaryReader.mkPlain ((⟨0xE0 + v / 0x1000000, by omega⟩ : Byte) ::
          (⟨v / 0x10000 % 0x100, by omega⟩ : Byte) :: (⟨v / 0x100 % 0x100, by omega⟩ : Byte) ::
          (⟨v % 0x100, by omega⟩ : Byte) :: rest)).uint8 =
          .ok (0xE0 + v / 0x1000000, ⟨(⟨0xE0 + v / 0x1000000, by omega⟩ : Byte) ::
            (⟨v / 0x10000 % 0x100, by omega⟩ : Byte) :: (⟨v / 0x100 % 0x100, by omega⟩ : Byte) ::
            (⟨v % 0x100, by omega⟩ : Byte) :: rest, 1, [], false⟩) := by
        simp [BinaryReader.mkPlain, BinaryReader.uint8, BinaryReader.read]
      have e2 : (⟨(⟨0xE0 + v / 0x1000000, by omega⟩ : Byte) ::
          (⟨v / 0x10000 % 0x100, by omega⟩ : Byte) :: (⟨v / 0x100 % 0x100, by omega⟩ : Byte) ::
          (⟨v % 0x100, by omega⟩ : Byte) :: rest, 1, [], false⟩ : BinaryReader).uint24 true =
          .ok ((v / 0x10000 % 0x100) <<< 16 ||| (v / 0x100 % 0x100) <<< 8 ||| v % 0x100,
            ⟨(⟨0xE0 + v / 0x1000000, by omega⟩ : Byte) ::
            (⟨v / 0x10000 % 0x100, by omega⟩ : Byte) :: (⟨v / 0x100 % 0x100, by omega⟩ : Byte) ::
            (⟨v % 0x100, by omega⟩ : Byte) :: rest, 4, [], false⟩) := by
        simp [BinaryReader.uint24, BinaryReader.read]
      constructor
      · unfold BinaryReader.gamma
        simp only [List.cons_append, List.nil_append]
        rw [e1]
        simp only [Bind.bind, Except.bind]
        dsimp only
        rw [if_neg hm.1, if_neg hm.2.1, if_neg hm.2.2.1, if_pos hm.2.2.2.1, e2]
        dsimp only
        rw [hm.2.2.2.2]
        have h24 : (v / 0x10000 % 0x100) <<< 16 ||| (v / 0x100 % 0x100) <<< 8 ||| v % 0x100 =
            v % 0x1000000 := by
          rw [Nat.lor_assoc, lor_shift_add (v / 0x100 % 0x100) 8 _ (by omega),
            lor_shift_add _ 16 _ (by omega)]
          omega
        rw [h24]
        have hv : (v / 0x1000000) <<< 24 ||| v % 0x1000000 = v := by
          rw [lor_shift_add _ 24 _ (by omega)]
          omega
        rw [hv]
        rfl
      · simp only [List.headD, List.length_cons, List.length_nil]
        unfold gammaClass
        rw [if_neg hm.1, if_neg hm.2.1, if_neg hm.2.2.1, if_pos hm.2.2.2.1]
    · -- 5-byte class
      injection h with hbs
      subst hbs
      have hx : v / 0x100000000 < 8 := by omega
      have hm := gamma_mask5 ⟨v / 0x100000000, hx⟩
      have e1 : (BinaryReader.mkPlain ((⟨0xF0 + v / 0x100000000, by omega⟩ : Byte) ::
          (⟨v / 0x1000000 % 0x100, by omega⟩ : Byte) :: (⟨v / 0x10000 % 0x100, by omega⟩ : Byte) ::
          (⟨v / 0x100 % 0x100, by omega⟩ : Byte) :: (⟨v % 0x100, by omega⟩ : Byte) :: rest)).uint8 =
          .ok (0xF0 + v / 0x100000000, ⟨(⟨0xF0 + v / 0x100000000, by omega⟩ : Byte) ::
            (⟨v / 0x1000000 % 0x100, by omega⟩ : Byte) :: (⟨v / 0x10000 % 0x100, by omega⟩ : Byte) ::
            (⟨v / 0x100 % 0x100, by omega⟩ : Byte) :: (⟨v % 0x100, by omega⟩ : Byte) :: rest,
            1, [], false⟩) := by
        simp [BinaryReader.mkPlain, BinaryReader.uint8, BinaryReader.read]
      have e2 : (⟨(⟨0xF0 + v / 0x100000000, by omega⟩ : Byte) ::
          (⟨v / 0x1000000 % 0x100, by omega⟩ : Byte) :: (⟨v / 0x10000 % 0x100, by omega⟩ : Byte) ::
          (⟨v / 0x100 % 0x100, by omega⟩ : Byte) :: (⟨v % 0x100, by omega⟩ : Byte) :: rest,
          1, [], false⟩ : BinaryReader).uint32 true =
          .ok (((v / 0x1000000 % 0x100 * 256 + v / 0x10000 % 0x100) * 256 + v / 0x100 % 0x100) *
              256 + v % 0x100,
            ⟨(⟨0xF0 + v / 0x100000000, by omega⟩ : Byte) ::
            (⟨v / 0x1000000 % 0x100, by omega⟩ : Byte) :: (⟨v / 0x10000 % 0x100, by omega⟩ : Byte) ::
            (⟨v / 0x100 % 0x100, by omega⟩ : Byte) :: (⟨v % 0x100, by omega⟩ : Byte) :: rest,
            5, [], false⟩) := by
        simp [BinaryReader.uint32, BinaryReader.read]
      constructor
      · unfold BinaryReader.gamma
        simp only [List.cons_append, List.nil_append]
        rw [e1]
        simp only [Bind.bind, Except.bind]
        dsimp only
        rw [if_neg hm.1, if_neg hm.2.1, if_neg hm.2.2.1, if_neg hm.2.2.2.1, if_pos hm.2.2.2.2.1, e2]
        dsimp only
        rw [hm.2.2.2.2.2]
        have hv : (v / 0x100000000) <<< 32 |||
            (((v / 0x1000000 % 0x100 * 256 + v / 0x10000 % 0x100) * 256 + v / 0x100 % 0x100) *
              256 + v % 0x100) = v := by
          rw [lor_shift_add _ 32 _ (by omega)]
          omega
        rw [hv]
        rfl
      · simp only [List.headD, List.length_cons, List.length_nil]
        unfold gammaClass
        rw [if_neg hm.1, if_neg hm.2.1, if_neg hm.2.2.1, if_neg hm.2.2.2.1, if_pos hm.2.2.2.2.1]
  · intro b rest hb
    have hm := gamma_mask_invalid b hb
    have e1 : (BinaryReader.mkPlain (b :: rest)).uint8 =
        .ok (b.val, ⟨b :: rest, 1, [], false⟩) := by
      simp [BinaryReader.mkPlain, BinaryReader.uint8, BinaryReader.read]
    unfold BinaryReader.gamma
    rw [e1]
    simp only [Bind.bind, Except.bind]
    rw [if_neg hm.1, if_neg hm.2.1, if_neg hm.2.2.1, if_neg hm.2.2.2.1, if_neg hm.2.2.2.2]

/-!
Claim C10.
-/

lemma getutf8_size_pos {b : List Byte} {pos size c : Nat}
    (h : getutf8 b pos = some (size, c)) : 1 ≤ size := by
  unfold getutf8 at h
  simp only [] at h
  split_ifs at h <;> (injection h with h'; injection h' with h1 h2; omega)

lemma consumeParams_not_outOfFuel :
    ∀ (stack : List Int) (ws : List Nat) (acc : List StackParam),
      consumeParams stack ws acc ≠ .error .outOfFuel := by
  intro stack ws
  induction ws generalizing stack with
  | nil => intro acc h; simp [consumeParams] at h
  | cons w rest ih =>
    intro acc h
    unfold consumeParams at h
    by_cases hlt : stack.length < w
    · rw [if_pos hlt] at h
      simp at h
    · rw [if_neg hlt] at h
      cases stack with
      | nil => simp at h
      | cons s0 t => exact ih _ _ h

lemma runHandler_not_outOfFuel (cc : ControlCode) (st : TextRefStack) :
    runHandler cc st ≠ .error .outOfFuel := by
  unfold runHandler
  cases cc.command_handler with
  | standard =>
    unfold TextRefStack.standard_command
    by_cases hg : cc.inline_param_size ≠ 0 ∨ cc.stack_param_size ≠ []
    · rw [if_pos hg]
      intro h
      simp only [Bind.bind, Except.bind] at h
      cases hc : consumeParams st.stack_index cc.stack_param_size [] with
      | error e =>
        rw [hc] at h
        cases h'' : e <;> simp_all
        exact consumeParams_not_outOfFuel _ _ _ hc
      | ok p => rw [hc] at h; simp at h
    · rw [if_neg hg]; simp
  | pushWord => simp
  | rotateWords =>
    unfold TextRefStack.rotate_words
    by_cases hl : 8 ≤ st.stack_index.length
    · rw [if_pos hl]; simp
    · rw [if_neg hl]; simp

lemma nextCode_advance (isUni : Bool) (b : List Byte) (pos : Nat) :
    pos < (nextCode isUni b pos).2 := by
  unfold nextCode
  cases isUni with
  | true =>
    rw [if_pos rfl]
    cases hg : getutf8 b pos with
    | none => simp
    | some p =>
      rcases p with ⟨size, c⟩
      have := getutf8_size_pos hg
      simp
      omega
  | false =>
    rw [if_neg (by simp)]
    dsimp only
    split <;> simp

lemma decodestrStep_not_outOfFuel (isUni : Bool) (b : List Byte) (pos : Nat)
    (stack : TextRefStack) (acc : List Nat) :
    decodestrStep isUni b pos stack acc ≠ .fail .outOfFuel := by
  unfold decodestrStep
  rcases hE : nextCode isUni b pos with ⟨c, p2⟩
  dsimp only
  by_cases hc : c = 0xE09A
  · rw [if_pos hc]
    by_cases hpp : p2 < b.length
    · rw [dif_pos hpp]
      cases hr : runHandler ((dictGet EXT_CTRL_CODES (b.get ⟨p2, hpp⟩).val).getD
          ControlCode.default) stack with
      | error e =>
        intro habs
        simp at habs
        rw [habs] at hr
        exact runHandler_not_outOfFuel _ _ hr
      | ok stack' => simp
    · rw [dif_neg hpp]
      simp
  · rw [if_neg hc]
    by_cases hc2 : 0xE000 ≤ c ∧ c ≤ 0xE0FF
    · rw [if_pos hc2]
      cases hr : runHandler ((dictGet CTRL_CODES (c - 0xE000)).getD
          ControlCode.default) stack with
      | error e =>
        intro habs
        simp at habs
        rw [habs] at hr
        exact runHandler_not_outOfFuel _ _ hr
      | ok stack' => simp
    · rw [if_neg hc2]
      by_cases hc3 : 32 ≤ c ∨ c = 13
      · rw [if_pos hc3]
        by_cases hc4 : c < 0x110000
        · rw [if_pos hc4]; simp
        · rw [if_neg hc4]; simp
      · rw [if_neg hc3]; simp

lemma decodestrStep_advance (isUni : Bool) (b : List Byte) (pos : Nat)
    (stack : TextRefStack) (acc : List Nat) (pos' : Nat) (stack' : TextRefStack)
    (res' : List Nat) (hs : decodestrStep isUni b pos stack acc = .next pos' stack' res') :
    pos < pos' := by
  have hN := nextCode_advance isUni b pos
  unfold decodestrStep at hs
  rcases hE : nextCode isUni b pos with ⟨c, p2⟩
  rw [hE] at hs
  rw [hE] at hN
  dsimp only at hs hN
  by_cases hc : c = 0xE09A
  · rw [if_pos hc] at hs
    by_cases hpp : p2 < b.length
    · rw [dif_pos hpp] at hs
      cases hr : runHandler ((dictGet EXT_CTRL_CODES (b.get ⟨p2, hpp⟩).val).getD
          ControlCode.default) stack with
      | error e => rw [hr] at hs; simp at hs
      | ok s2 =>
        rw [hr] at hs
        simp at hs
        omega
    · rw [dif_neg hpp] at hs
      simp at hs
  · rw [if_neg hc] at hs
    by_cases hc2 : 0xE000 ≤ c ∧ c ≤ 0xE0FF
    · rw [if_pos hc2] at hs
      cases hr : runHandler ((dictGet CTRL_CODES (c - 0xE000)).getD
          ControlCode.default) stack with
      | error e => rw [hr] at hs; simp at hs
      | ok s2 =>
        rw [hr] at hs
        simp at hs
        omega
    · rw [if_neg hc2] at hs
      by_cases hc3 : 32 ≤ c ∨ c = 13
      · rw [if_pos hc3] at hs
        by_cases hc4 : c < 0x110000
        · rw [if_pos hc4] at hs
          simp at hs
          omega
        · rw [if_neg hc4] at hs
          simp at hs
      · rw [if_neg hc3] at hs
        simp at hs
        omega

/-- C10: the string decoder is not total: from any loop state whose next
decoded code point is the extended-code introducer 0xE09A with nothing after
it, the decoder fails with the out-of-range index error instead of returning;
every completed loop iteration advances the position by at least one byte, so
the loop never exhausts a fuel larger than the remaining byte count, and the
top-level `decodestr` never fails for lack of fuel (decoding terminates). -/
theorem decodestr_introducer_overrun :
    (∀ (isUni : Bool) (b : List Byte) (pos : Nat) (stack : TextRefStack) (acc : List Nat)
        (fuel : Nat), pos < b.length → nextCode isUni b pos = (0xE09A, b.length) →
        decodestrLoop isUni b (fuel + 1) pos stack acc = .error .indexError) ∧
    (∀ (isUni : Bool) (b : List Byte) (pos : Nat) (stack : TextRefStack) (acc : List Nat)
        (pos' : Nat) (stack' : TextRefStack) (res' : List Nat),
        decodestrStep isUni b pos stack acc = .next pos' stack' res' → pos < pos') ∧
    (∀ (isUni : Bool) (b : List Byte) (fuel pos : Nat) (stack : TextRefStack) (acc : List Nat),
        b.length - pos < fuel →
        decodestrLoop isUni b fuel pos stack acc ≠ .error .outOfFuel) ∧
    (∀ b : List Byte, decodestr b ≠ .error .outOfFuel) := by
  have hone : ∀ (isUni : Bool) (b : List Byte) (pos : Nat) (stack : TextRefStack) (acc : List Nat)
      (fuel : Nat), pos < b.length → nextCode isUni b pos = (0xE09A, b.length) →
      decodestrLoop isUni b (fuel + 1) pos stack acc = .error .indexError := by
    intro isUni b pos stack acc fuel h1 h2
    have hstep : decodestrStep isUni b pos stack acc = .fail .indexError := by
      unfold decodestrStep
      rw [h2]
      dsimp only
      rw [if_pos rfl, dif_neg (lt_irrefl _)]
    rw [decodestrLoop_succ, if_pos h1, hstep]
  have hfuel : ∀ (isUni : Bool) (b : List Byte) (fuel pos : Nat) (stack : TextRefStack)
      (acc : List Nat), b.length - pos < fuel →
      decodestrLoop isUni b fuel pos stack acc ≠ .error .outOfFuel := by
    intro isUni b fuel
    induction fuel with
    | zero => intro pos stack acc h; omega
    | succ n ih =>
      intro pos stack acc h
      rw [decodestrLoop_succ]
      by_cases hp : pos < b.length
      · rw [if_pos hp]
        cases hs : decodestrStep isUni b pos stack acc with
        | fail e =>
          intro habs
          rw [Except.error.injEq] at habs
          rw [habs] at hs
          exact decodestrStep_not_outOfFuel _ _ _ _ _ hs
        | next pos' stack' res' =>
          have := decodestrStep_advance isUni b pos stack acc pos' stack' res' hs
          exact ih pos' stack' res' (by omega)
      · rw [if_neg hp]
        simp
  refine ⟨hone, fun isUni b pos stack acc pos' stack' res' hs =>
    decodestrStep_advance isUni b pos stack acc pos' stack' res' hs, hfuel, ?_⟩
  intro b
  unfold decodestr
  have hf := hfuel (decide (getutf8 b 0 = some (2, 0x00DE))) b (b.length + 1)
      (if getutf8 b 0 = some (2, 0x00DE) then 2 else 0) TextRefStack.init [] (by omega)
  cases hL : decodestrLoop (decide (getutf8 b 0 = some (2, 0x00DE))) b (b.length + 1)
      (if getutf8 b 0 = some (2, 0x00DE) then 2 else 0) TextRefStack.init [] with
  | error e =>
    rw [hL] at hf
    dsimp only
    intro habs
    apply hf
    rw [Except.error.injEq] at habs
    rw [habs]
  | ok p =>
    dsimp only
    rcases p with ⟨res, stk⟩
    simp

/-- Witness for C10 at the one-byte input 0x9A (single-byte mode, final code
point is the introducer) and the literal input 0x41. -/
theorem decodestr_introducer_overrun_witness :
    decodestrLoop false [⟨0x9A, by omega⟩] (0 + 1) 0 TextRefStack.init [] = .error .indexError ∧
    (0 : Nat) < 1 ∧
    decodestrLoop false [⟨0x9A, by omega⟩] 2 0 TextRefStack.init [] ≠ .error .outOfFuel ∧
    decodestr [⟨0x9A, by omega⟩] ≠ .error .outOfFuel :=
  ⟨decodestr_introducer_overrun.1 false [⟨0x9A, by omega⟩] 0 TextRefStack.init [] 0
      (by decide) (by decide),
   decodestr_introducer_overrun.2.1 false [⟨0x41, by omega⟩] 0 TextRefStack.init []
      1 TextRefStack.init [0x41] (by decide),
   decodestr_introducer_overrun.2.2.1 false [⟨0x9A, by omega⟩] 2 0 TextRefStack.init []
      (by decide),
   decodestr_introducer_overrun.2.2.2 [⟨0x9A, by omega⟩]⟩

/-!
Claim C5.
-/

lemma dictGet_dictInsert {α β : Type} [DecidableEq α] (m : List (α × β)) (k k' : α) (v : β) :
    dictGet (dictInsert m k v) k' = if k = k' then some v else dictGet m k' := by
  induction m with
  | nil =>
    by_cases hk : k = k' <;> simp [dictInsert, dictGet, hk]
  | cons hd tl ih =>
    rcases hd with ⟨k0, v0⟩
    by_cases h0 : k0 = k
    · subst h0
      by_cases hk : k0 = k' <;> simp [dictInsert, dictGet, hk]
    · by_cases hk : k0 = k'
      · subst hk
        have : ¬ k = k0 := fun habs => h0 habs.symm
        simp [dictInsert, dictGet, h0, this]
      · simp [dictInsert, dictGet, h0, hk, ih]

lemma dictGet_mem {α β : Type} [DecidableEq α] (m : List (α × β)) (k : α) (v : β)
    (h : dictGet m k = some v) : (k, v) ∈ m := by
  induction m with
  | nil => simp [dictGet] at h
  | cons hd tl ih =>
    rcases hd with ⟨k0, v0⟩
    by_cases hk : k0 = k
    · subst hk
      simp [dictGet] at h
      simp [h]
    · simp [dictGet, hk] at h
      simp [ih h]

lemma dictGet_isSome_iff {α β : Type} [DecidableEq α] (m : List (α × β)) (k : α) :
    (dictGet m k).isSome ↔ k ∈ m.map Prod.fst := by
  induction m with
  | nil => simp [dictGet]
  | cons hd tl ih =>
    rcases hd with ⟨k0, v0⟩
    by_cases hk : k0 = k
    · subst hk
      simp [dictGet]
    · simp only [dictGet, if_neg hk, List.map_cons, List.mem_cons]
      rw [ih]
      constructor
      · exact Or.inr
      · rintro (h | h)
        · exact absurd h.symm hk
        · exact h

lemma dictGet_foldl_not_mem (items : List (Nat × List Nat)) (l : Nat)
    (h : l ∉ items.map Prod.fst) :
    ∀ acc, dictGet (items.foldl (fun m p => dictInsert m p.1 p.2) acc) l = dictGet acc l := by
  induction items with
  | nil => intro acc; rfl
  | cons hd tl ih =>
    intro acc
    rcases hd with ⟨k0, v0⟩
    simp only [List.map_cons, List.mem_cons] at h
    push_neg at h
    simp only [List.foldl_cons]
    rw [ih h.2, dictGet_dictInsert]
    rw [if_neg (fun habs => h.1 habs.symm)]

lemma dictGet_foldl_mem (items : List (Nat × List Nat)) (l : Nat) (v : List Nat)
    (hnd : (items.map Prod.fst).Nodup) (h : dictGet items l = some v) :
    ∀ acc, dictGet (items.foldl (fun m p => dictInsert m p.1 p.2) acc) l = some v := by
  induction items with
  | nil => simp [dictGet] at h
  | cons hd tl ih =>
    intro acc
    rcases hd with ⟨k0, v0⟩
    simp only [List.map_cons, List.nodup_cons] at hnd
    simp only [List.foldl_cons]
    by_cases hk : k0 = l
    · subst hk
      simp [dictGet] at h
      subst h
      rw [dictGet_foldl_not_mem _ _ hnd.1, dictGet_dictInsert, if_pos rfl]
    · simp only [dictGet, if_neg hk] at h
      exact ih hnd.2 h _

lemma decodeAll_ok (raw : List (Nat × List Byte))
    (h : ∀ p ∈ raw, ∃ v, decodestr p.2 = .ok v) :
    ∃ items, decodeAll raw = .ok items ∧
      List.Forall₂ (fun p q => p.1 = q.1 ∧ ∃ s, decodestr p.2 = .ok (q.2, s)) raw items := by
  induction raw with
  | nil => exact ⟨[], rfl, List.Forall₂.nil⟩
  | cons hd tl ih =>
    rcases hd with ⟨lang, t⟩
    obtain ⟨v, hv⟩ := h (lang, t) (by simp)
    obtain ⟨items, hok, hall⟩ := ih (fun p hp => h p (by simp [hp]))
    rcases v with ⟨txt, s⟩
    refine ⟨(lang, txt) :: items, ?_, ?_⟩
    · unfold decodeAll
      rw [hv, hok]
    · exact List.Forall₂.cons ⟨rfl, s, hv⟩ hall

lemma forall₂_keys {raw : List (Nat × List Byte)} {items : List (Nat × List Nat)}
    (hall : List.Forall₂ (fun p q => p.1 = q.1 ∧ ∃ s, decodestr p.2 = .ok (q.2, s)) raw items) :
    raw.map Prod.fst = items.map Prod.fst := by
  induction hall with
  | nil => rfl
  | cons hr _ ih => simp [ih, hr.1]

lemma forall₂_dictGet {raw : List (Nat × List Byte)} {items : List (Nat × List Nat)}
    (hall : List.Forall₂ (fun p q => p.1 = q.1 ∧ ∃ s, decodestr p.2 = .ok (q.2, s)) raw items)
    (l : Nat) (t : List Byte) (h : dictGet raw l = some t) :
    ∃ txt s, dictGet items l = some txt ∧ decodestr t = .ok (txt, s) := by
  induction hall with
  | nil => simp [dictGet] at h
  | cons hr htl ih =>
    rename_i p q raw' items'
    rcases p with ⟨k0, t0⟩
    rcases q with ⟨k0', txt0⟩
    obtain ⟨hk, s0, hdec⟩ := hr
    simp only at hk
    subst hk
    by_cases hl : k0 = l
    · subst hl
      simp [dictGet] at h
      subst h
      exact ⟨txt0, s0, by simp [dictGet], hdec⟩
    · simp only [dictGet, if_neg hl] at h ⊢
      exact ih h

/-- C5: `process_string` raises the missing-base-text error exactly when tag
0x7F is absent; when 0x7F is present and every supplied translation decodes
without error, it returns a map whose keys are exactly the supplied language
tags, each mapped to the independently decoded normalized text of its raw
bytes (the per-slot classification being discarded). -/
theorem process_string_spec (raw : List (Nat × List Byte))
    (hnd : (raw.map Prod.fst).Nodup) :
    ((process_string raw = .error .missingBaseText) ↔ dictGet raw 0x7F = none) ∧
    (∀ b, dictGet raw 0x7F = some b →
      (∀ p ∈ raw, ∃ v, decodestr p.2 = .ok v) →
      ∃ m, process_string raw = .ok m ∧
        (∀ l, (dictGet m l).isSome ↔ (dictGet raw l).isSome) ∧
        (∀ l t, dictGet raw l = some t →
          ∃ txt s, decodestr t = .ok (txt, s) ∧ dictGet m l = some txt)) := by
  constructor
  · cases hb : dictGet raw 0x7F with
    | none =>
      constructor
      · intro _; rfl
      · intro _
        unfold process_string
        rw [hb]
    | some b =>
      constructor
      · intro habs
        exfalso
        unfold process_string at habs
        rw [hb] at habs
        dsimp only at habs
        cases hd : decodestr b with
        | error e => rw [hd] at habs; simp at habs
        | ok v =>
          rcases v with ⟨base, s⟩
          rw [hd] at habs
          dsimp only at habs
          cases ha : decodeAll raw with
          | error e => rw [ha] at habs; simp at habs
          | ok items => rw [ha] at habs; simp at habs
      · intro habs
        exact absurd habs (by simp)
  · intro b hb hdec
    have hmem : (0x7F, b) ∈ raw := dictGet_mem raw 0x7F b hb
    obtain ⟨vb, hvb⟩ := hdec (0x7F, b) hmem
    rcases vb with ⟨base, sb⟩
    obtain ⟨items, hitems, hall⟩ := decodeAll_ok raw hdec
    have hkeys : raw.map Prod.fst = items.map Prod.fst := forall₂_keys hall
    have hndi : (items.map Prod.fst).Nodup := hkeys ▸ hnd
    refine ⟨items.foldl (fun m p => dictInsert m p.1 p.2) [(0x7F, base)], ?_, ?_, ?_⟩
    · unfold process_string
      rw [hb]
      dsimp only
      rw [hvb]
      dsimp only
      rw [hitems]
    · intro l
      constructor
      · intro hsome
        by_cases hl : l ∈ items.map Prod.fst
        · rw [dictGet_isSome_iff, hkeys]
          exact hl
        · rw [dictGet_foldl_not_mem _ _ hl _] at hsome
          have h7f : l = 0x7F := by
            by_cases h7 : 0x7F = l
            · omega
            · simp [dictGet, h7] at hsome
          rw [h7f, hb]
          simp
      · intro hsome
        rw [dictGet_isSome_iff, hkeys] at hsome
        rw [← dictGet_isSome_iff] at hsome
        obtain ⟨v, hv⟩ := Option.isSome_iff_exists.mp hsome
        rw [dictGet_foldl_mem _ _ _ hndi hv _]
        simp
    · intro l t ht
      obtain ⟨txt, s, hgi, hdt⟩ := forall₂_dictGet hall l t ht
      exact ⟨txt, s, hdt, dictGet_foldl_mem _ _ _ hndi hgi _⟩

/-- C5 counterexample (for the unconditional reading): with 0x7F present but
its translation ending in the extended-code introducer, `process_string`
neither raises the missing-base-text error nor returns a map. -/
theorem process_string_decode_failure_cex :
    (dictGet [(0x7F, [(⟨0x9A, by omega⟩ : Byte)])] 0x7F).isSome = true ∧
    process_string [(0x7F, [(⟨0x9A, by omega⟩ : Byte)])] = .error (.decode .indexError) := by
  constructor
  · decide
  · decide

/-- Witness for C5 at the one-entry map 0x7F to the single byte 0x41. -/
theorem process_string_spec_witness :
    ((process_string [(0x7F, [(⟨0x41, by omega⟩ : Byte)])] = .error .missingBaseText) ↔
      dictGet [(0x7F, [(⟨0x41, by omega⟩ : Byte)])] 0x7F = none) ∧
    (∃ m, process_string [(0x7F, [(⟨0x41, by omega⟩ : Byte)])] = .ok m ∧
      (∀ l, (dictGet m l).isSome ↔
        (dictGet [(0x7F, [(⟨0x41, by omega⟩ : Byte)])] l).isSome) ∧
      (∀ l t, dictGet [(0x7F, [(⟨0x41, by omega⟩ : Byte)])] l = some t →
        ∃ txt s, decodestr t = .ok (txt, s) ∧ dictGet m l = some txt)) :=
  ⟨(process_string_spec [(0x7F, [(⟨0x41, by omega⟩ : Byte)])] (by decide)).1,
   (process_string_spec [(0x7F, [(⟨0x41, by omega⟩ : Byte)])] (by decide)).2
     [(⟨0x41, by omega⟩ : Byte)] (by decide)
     (fun p hp => by
       rw [List.mem_singleton.mp hp]
       exact ⟨([0x41], []), by decide⟩)⟩

/-!
Claim C3.
-/

/-- Concrete record-loop state at sprite index 0 with skip budget 0 whose next
record is a 0xFF pseudo-sprite of length 1. -/
def c3state0 : LoopState := ⟨⟨[0xFF, 0x05], 0, [], true⟩, 0, 0, ParserState.init, GRF.init⟩

/-- C3 counterexample: at sprite index 0, a 0xFF record with zero skip budget
is read but the action dispatcher is not invoked (the step reports no
dispatch), contradicting the claim's unconditional dispatch. -/
theorem pseudo_dispatch_index0_cex :
    c3state0.skip_sprites = 0 ∧
    (c3state0.reader.uint8).map Prod.fst = .ok 0xFF ∧
    (containerStep 1 c3state0 1).map Prod.snd = .ok none := by
  refine ⟨rfl, by decide, by decide⟩

/-- C3 (amended): whenever the skip budget is zero, the next record kind is
0xFF and the sprite index is nonzero, the container step reads the declared
length as the pseudo-sprite payload, invokes the dispatcher with the sprite
index, payload and parser state, and the new skip budget is the dispatcher's
returned count added to the (zero) remaining budget; a dispatcher error aborts
the step. -/
theorem pseudo_dispatch_step (cv : Nat) (s : LoopState) (size : Nat) (r' : BinaryReader)
    (h0 : s.skip_sprites = 0) (hb : s.reader.uint8 = .ok (0xFF, r'))
    (hi : s.sprite_index ≠ 0) :
    containerStep cv s size =
      (read_pseudo s.sprite_index ((r'.read size).1) s.state s.grf).map
        (fun x => (⟨(r'.read size).2, s.skip_sprites + x.1, s.sprite_index + 1, x.2.1, x.2.2⟩,
          some (s.sprite_index, (r'.read size).1))) := by
  unfold containerStep
  rw [hb]
  simp only [Bind.bind, Except.bind, if_true]
  rw [if_neg (show ¬ 0 < s.skip_sprites by omega), if_pos hi]
  cases hp : read_pseudo s.sprite_index ((r'.read size).1) s.state s.grf with
  | error e => rfl
  | ok x =>
    rcases x with ⟨n, st, grf⟩
    simp [Except.map, h0]

/-- Concrete record-loop state at sprite index 1 whose next record is a 0xFF
pseudo-sprite of length 3 carrying the Action 5 payload 05 00 07. -/
def c3state1 : LoopState :=
  ⟨⟨[0xFF, 0x05, 0x00, 0x07], 0, [], true⟩, 0, 1, ParserState.init, GRF.init⟩

/-- Witness for C3 at `c3state1` (Action 5 returns skip count 7). -/
theorem pseudo_dispatch_step_witness :
    containerStep 1 c3state1 3 =
      (read_pseudo c3state1.sprite_index
          (((⟨[0xFF, 0x05, 0x00, 0x07], 1, [0xFF], true⟩ : BinaryReader).read 3).1)
          c3state1.state c3state1.grf).map
        (fun x => (⟨((⟨[0xFF, 0x05, 0x00, 0x07], 1, [0xFF], true⟩ : BinaryReader).read 3).2,
          c3state1.skip_sprites + x.1, c3state1.sprite_index + 1, x.2.1, x.2.2⟩,
          some (c3state1.sprite_index,
            ((⟨[0xFF, 0x05, 0x00, 0x07], 1, [0xFF], true⟩ : BinaryReader).read 3).1))) :=
  pseudo_dispatch_step 1 c3state1 3 ⟨[0xFF, 0x05, 0x00, 0x07], 1, [0xFF], true⟩
    rfl (by decide) (by decide)

/-- Witness for C6 at v = 300 (two-byte class 0x81 0x2C) and at the invalid
first byte 0xFF. -/
theorem gamma_roundtrip_class_witness :
    (((BinaryReader.mkPlain (([⟨0x81, by omega⟩, ⟨0x2C, by omega⟩] : List Byte) ++ [])).gamma).map
        Prod.fst = .ok (300, ([⟨0x81, by omega⟩, ⟨0x2C, by omega⟩] : List Byte).length) ∧
      ([⟨0x81, by omega⟩, ⟨0x2C, by omega⟩] : List Byte).length =
        gammaClass (([⟨0x81, by omega⟩, ⟨0x2C, by omega⟩] : List Byte).headD 0).val) ∧
    (BinaryReader.mkPlain ((⟨0xFF, by omega⟩ : Byte) :: [])).gamma = .error .invalidGamma :=
  ⟨gamma_roundtrip_class.1 300 [⟨0x81, by omega⟩, ⟨0x2C, by omega⟩] [] (by decide),
   gamma_roundtrip_class.2 ⟨0xFF, by omega⟩ [] (by decide)⟩

/-!
Claim C2: which bytes reach the streaming hash.
-/

/-- Invariant of the hashed phase of `NewGRF.read`: the reader ranges over the
whole input, stays in bounds, has the hash attached, and has hashed exactly
the bytes consumed so far. -/
def RInv (input : List Byte) (r : BinaryReader) : Prop :=
  r.input = input ∧ r.pos ≤ input.length ∧ r.hashOn = true ∧ r.hashed = input.take r.pos

lemma rinv_mkHashed (input : List Byte) : RInv input (BinaryReader.mkHashed input) :=
  ⟨rfl, Nat.zero_le _, rfl, rfl⟩

lemma take_min_length {α : Type} (l : List α) (n : Nat) :
    l.take (min n l.length) = l.take n := by
  rw [← List.take_take, List.take_length]

lemma read_rinv {input : List Byte} {r : BinaryReader} (n : Nat) (h : RInv input r) :
    RInv input (r.read n).2 := by
  obtain ⟨hi, hp, ho, hh⟩ := h
  subst hi
  unfold BinaryReader.read
  dsimp only
  refine ⟨rfl, ?_, ho, ?_⟩
  · show r.pos + ((r.input.drop r.pos).take n).length ≤ r.input.length
    rw [List.length_take, List.length_drop]
    omega
  · rw [if_pos ho, hh, List.take_add, List.length_take, List.length_drop,
      ← List.length_drop r.pos r.input, take_min_length]

lemma skip_rinv {input : List Byte} {r : BinaryReader} (n : Nat) (h : RInv input r) :
    RInv input (r.skip n) := read_rinv n h

lemma uint8_rinv {input : List Byte} {r : BinaryReader} {v : Nat} {r2 : BinaryReader}
    (h : RInv input r) (he : r.uint8 = .ok (v, r2)) : RInv input r2 := by
  unfold BinaryReader.uint8 at he
  split at he
  · next b r3 heq =>
    simp only [Except.ok.injEq, Prod.mk.injEq] at he
    have h2 : RInv input (r.read 1).2 := read_rinv 1 h
    rw [heq] at h2
    rw [← he.2]
    exact h2
  · simp at he

lemma uint16_rinv {input : List Byte} {r : BinaryReader} {be : Bool} {v : Nat}
    {r2 : BinaryReader} (h : RInv input r) (he : r.uint16 be = .ok (v, r2)) :
    RInv input r2 := by
  unfold BinaryReader.uint16 at he
  split at he
  · next b0 b1 r3 heq =>
    simp only [Except.ok.injEq, Prod.mk.injEq] at he
    have h2 : RInv input (r.read 2).2 := read_rinv 2 h
    rw [heq] at h2
    rw [← he.2]
    exact h2
  · simp at he

lemma uint32_rinv {input : List Byte} {r : BinaryReader} {be : Bool} {v : Nat}
    {r2 : BinaryReader} (h : RInv input r) (he : r.uint32 be = .ok (v, r2)) :
    RInv input r2 := by
  unfold BinaryReader.uint32 at he
  split at he
  · next b0 b1 b2 b3 r3 heq =>
    simp only [Except.ok.injEq, Prod.mk.injEq] at he
    have h2 : RInv input (r.read 4).2 := read_rinv 4 h
    rw [heq] at h2
    rw [← he.2]
    exact h2
  · simp at he

lemma uint8_error_pos {r : BinaryReader} {e : Err} (he : r.uint8 = .error e) :
    r.input.length ≤ r.pos := by
  by_contra hlt
  cases hc : r.input.drop r.pos with
  | nil =>
    have hlen := congrArg List.length hc
    rw [List.length_drop] at hlen
    simp only [List.length_nil] at hlen
    omega
  | cons x xs =>
    have h2 : (r.read 1).1 = [x] := by
      show (r.input.drop r.pos).take 1 = [x]
      rw [hc]
      rfl
    have h3 : r.read 1 = ([x], (r.read 1).2) := by
      rw [← h2]
    have h1 : r.uint8 = .ok (x.val, (r.read 1).2) := by
      unfold BinaryReader.uint8
      rw [h3]
    rw [h1] at he
    simp at he

lemma read_hashOff {r : BinaryReader} (n : Nat) (h : r.hashOn = false) :
    (r.read n).2.hashOn = false ∧ (r.read n).2.hashed = r.hashed := by
  unfold BinaryReader.read
  dsimp only
  refine ⟨h, ?_⟩
  rw [h]
  rfl

lemma uint32_hashOff {r : BinaryReader} {be : Bool} {v : Nat} {r2 : BinaryReader}
    (h : r.hashOn = false) (he : r.uint32 be = .ok (v, r2)) :
    r2.hashOn = false ∧ r2.hashed = r.hashed := by
  unfold BinaryReader.uint32 at he
  split at he
  · next b0 b1 b2 b3 r3 heq =>
    simp only [Except.ok.injEq, Prod.mk.injEq] at he
    have h2 := read_hashOff 4 h
    rw [heq] at h2
    rw [← he.2]
    exact h2
  · simp at he

lemma decodeSpriteV1_rinv {input : List Byte} :
    ∀ (fuel : Nat) (r : BinaryReader) (size : Nat) (r2 : BinaryReader),
      RInv input r → decodeSpriteV1 fuel r size = .ok r2 → RInv input r2 := by
  intro fuel
  induction fuel with
  | zero => intro r size r2 _ he; exact absurd he (by simp [decodeSpriteV1])
  | succ n ih =>
    intro r size r2 h he
    unfold decodeSpriteV1 at he
    by_cases hz : size = 0
    · rw [if_pos hz] at he
      simp only [Except.ok.injEq] at he
      rw [← he]
      exact h
    · rw [if_neg hz] at he
      simp only [Bind.bind, Except.bind] at he
      cases hb : r.uint8 with
      | error e => rw [hb] at he; exact absurd he (by simp)
      | ok p =>
        rw [hb] at he
        rcases p with ⟨i, r1⟩
        dsimp only at he
        have h1 : RInv input r1 := uint8_rinv h hb
        by_cases hlt : i < 0x80
        · rw [if_pos hlt] at he
          by_cases hsl : size < (if i = 0 then 0x80 else i)
          · rw [if_pos hsl] at he; exact absurd he (by simp)
          · rw [if_neg hsl] at he
            exact ih _ _ _ (skip_rinv _ h1) he
        · rw [if_neg hlt] at he
          by_cases hsl : size < 32 - (i >>> 3)
          · rw [if_pos hsl] at he; exact absurd he (by simp)
          · rw [if_neg hsl] at he
            exact ih _ _ _ (skip_rinv 1 h1) he

lemma containerStep_rinv {input : List Byte} {cv : Nat} {s : LoopState} {size : Nat}
    {s2 : LoopState} {d : Option (Nat × List Byte)}
    (h : RInv input s.reader) (he : containerStep cv s size = .ok (s2, d)) :
    RInv input s2.reader := by
  unfold containerStep at he
  simp only [Bind.bind, Except.bind] at he
  cases hb : s.reader.uint8 with
  | error e => rw [hb] at he; exact absurd he (by simp)
  | ok p =>
    rw [hb] at he
    rcases p with ⟨info, r⟩
    dsimp only at he
    have hr : RInv input r := uint8_rinv h hb
    by_cases hff : info = 0xFF
    · rw [if_pos hff] at he
      by_cases hsk : 0 < s.skip_sprites
      · rw [if_pos hsk] at he
        simp only [Except.ok.injEq, Prod.mk.injEq] at he
        rw [← he.1]
        exact skip_rinv size hr
      · rw [if_neg hsk] at he
        by_cases hi : s.sprite_index ≠ 0
        · rw [if_pos hi] at he
          cases hp : read_pseudo s.sprite_index ((r.read size).1) s.state s.grf with
          | error e => rw [hp] at he; exact absurd he (by simp)
          | ok x =>
            rw [hp] at he
            rcases x with ⟨n, st, grf⟩
            dsimp only at he
            simp only [Except.ok.injEq, Prod.mk.injEq] at he
            rw [← he.1]
            exact read_rinv size hr
        · rw [if_neg hi] at he
          simp only [Except.ok.injEq, Prod.mk.injEq] at he
          rw [← he.1]
          exact read_rinv size hr
    · rw [if_neg hff] at he
      by_cases h2 : cv = 2 ∧ info = 0xFD
      · rw [if_pos h2] at he
        simp only [Except.ok.injEq, Prod.mk.injEq] at he
        rw [← he.1]
        exact skip_rinv size hr
      · rw [if_neg h2] at he
        by_cases h1 : cv = 1 ∧ 8 ≤ size
        · rw [if_pos h1] at he
          by_cases hraw : info &&& 0x02 ≠ 0
          · rw [if_pos hraw] at he
            simp only [Except.ok.injEq, Prod.mk.injEq] at he
            rw [← he.1]
            exact skip_rinv (size - 8) (skip_rinv 7 hr)
          · rw [if_neg hraw] at he
            cases hd : decodeSpriteV1 (size - 8 + 1) (r.skip 7) (size - 8) with
            | error e => rw [hd] at he; exact absurd he (by simp)
            | ok rd =>
              rw [hd] at he
              dsimp only at he
              simp only [Except.ok.injEq, Prod.mk.injEq] at he
              rw [← he.1]
              exact decodeSpriteV1_rinv _ _ _ _ (skip_rinv 7 hr) hd
        · rw [if_neg h1] at he
          exact absurd he (by simp)

lemma recordLoop_rinv {input : List Byte} {cv : Nat} :
    ∀ (fuel : Nat) (s : LoopState) (size : Nat) (s2 : LoopState),
      RInv input s.reader → recordLoop cv fuel s size = .ok s2 → RInv input s2.reader := by
  intro fuel
  induction fuel with
  | zero => intro s size s2 _ he; exact absurd he (by simp [recordLoop])
  | succ n ih =>
    intro s size s2 h he
    unfold recordLoop at he
    by_cases hz : size = 0
    · rw [if_pos hz] at he
      simp only [Except.ok.injEq] at he
      rw [← he]
      exact h
    · rw [if_neg hz] at he
      simp only [Bind.bind, Except.bind] at he
      cases hc : containerStep cv s size with
      | error e => rw [hc] at he; exact absurd he (by simp)
      | ok p =>
        rw [hc] at he
        rcases p with ⟨s1, d⟩
        dsimp only at he
        have h1 : RInv input s1.reader := containerStep_rinv h hc
        cases hn : (if cv = 2 then s1.reader.uint32 false else s1.reader.uint16 false) with
        | error e => rw [hn] at he; exact absurd he (by simp)
        | ok q =>
          rw [hn] at he
          rcases q with ⟨size1, r1⟩
          dsimp only at he
          have h2 : RInv input r1 := by
            by_cases hcv : cv = 2
            · rw [if_pos hcv] at hn
              exact uint32_rinv h1 hn
            · rw [if_neg hcv] at hn
              exact uint16_rinv h1 hn
          exact ih _ _ _ h2 he

lemma runRecords_rinv {input : List Byte} {cv : Nat} {r : BinaryReader} {size : Nat}
    {s2 : LoopState} (h : RInv input r) (he : runRecords cv input r size = .ok s2) :
    RInv input s2.reader :=
  recordLoop_rinv _ _ _ _ h he

lemma readHeader_rinv {input : List Byte} {r0 : BinaryReader}
    {hdr : (Nat × Nat) × BinaryReader}
    (h : RInv input r0) (he : readHeader r0 = .ok hdr) : RInv input hdr.2 := by
  unfold readHeader at he
  simp only [Bind.bind, Except.bind] at he
  cases h16 : r0.uint16 false with
  | error e => rw [h16] at he; exact absurd he (by simp)
  | ok p =>
    rw [h16] at he
    rcases p with ⟨size0, reader⟩
    dsimp only at he
    have h1 : RInv input reader := uint16_rinv h h16
    by_cases hz : size0 = 0
    · rw [if_pos hz] at he
      by_cases hm : (reader.read 8).1 = grfMagic
      · rw [if_pos hm] at he
        cases h32 : (reader.read 8).2.uint32 false with
        | error e => rw [h32] at he; exact absurd he (by simp)
        | ok q =>
          rw [h32] at he
          rcases q with ⟨w, r1⟩
          dsimp only at he
          have h2 : RInv input r1 := uint32_rinv (read_rinv 8 h1) h32
          cases h8 : r1.uint8 with
          | error e => rw [h8] at he; exact absurd he (by simp)
          | ok q2 =>
            rw [h8] at he
            rcases q2 with ⟨comp, r2⟩
            dsimp only at he
            have h3 : RInv input r2 := uint8_rinv h2 h8
            by_cases hcomp : comp ≠ 0
            · rw [if_pos hcomp] at he
              exact absurd he (by simp)
            · rw [if_neg hcomp] at he
              cases h32b : r2.uint32 false with
              | error e => rw [h32b] at he; exact absurd he (by simp)
              | ok q3 =>
                rw [h32b] at he
                rcases q3 with ⟨sz, r3⟩
                dsimp only at he
                simp only [Except.ok.injEq] at he
                rw [← he]
                exact uint32_rinv h3 h32b
      · rw [if_neg hm] at he
        exact absurd he (by simp)
    · rw [if_neg hz] at he
      simp only [Except.ok.injEq] at he
      rw [← he]
      exact h1

lemma readTrailerV1_rinv {input : List Byte} {r r2 : BinaryReader}
    (h : RInv input r) (he : readTrailerV1 r = .ok r2) : RInv input r2 := by
  unfold readTrailerV1 at he
  simp only [Bind.bind, Except.bind] at he
  cases h16 : r.uint16 false with
  | error e => rw [h16] at he; exact absurd he (by simp)
  | ok p =>
    rw [h16] at he
    rcases p with ⟨w, r1⟩
    dsimp only at he
    simp only [Except.ok.injEq] at he
    rw [← he]
    exact read_rinv 2 (uint16_rinv h h16)

lemma v2Trailer_hashOff : ∀ (fuel : Nat) (r r2 : BinaryReader), r.hashOn = false →
    v2Trailer fuel r = .ok r2 → r2.hashOn = false ∧ r2.hashed = r.hashed := by
  intro fuel
  induction fuel with
  | zero => intro r r2 _ he; exact absurd he (by simp [v2Trailer])
  | succ n ih =>
    intro r r2 h he
    unfold v2Trailer at he
    simp only [Bind.bind, Except.bind] at he
    cases h32 : r.uint32 false with
    | error e => rw [h32] at he; exact absurd he (by simp)
    | ok p =>
      rw [h32] at he
      rcases p with ⟨id, r1⟩
      dsimp only at he
      have h1 := uint32_hashOff h h32
      by_cases hz : id = 0
      · rw [if_pos hz] at he
        simp only [Except.ok.injEq] at he
        rw [← he]
        exact h1
      · rw [if_neg hz] at he
        cases h32b : r1.uint32 false with
        | error e => rw [h32b] at he; exact absurd he (by simp)
        | ok q =>
          rw [h32b] at he
          rcases q with ⟨sz, r3⟩
          dsimp only at he
          have h3 := uint32_hashOff h1.1 h32b
          have h4 := read_hashOff sz h3.1
          obtain ⟨h5, h6⟩ := ih (r3.skip sz) r2 h4.1 he
          exact ⟨h5, by rw [h6]; exact h4.2.trans (h3.2.trans h1.2)⟩

/-- A complete container-v1 file: one record of declared length 1 holding the
pseudo-sprite FF 05, the end-of-records marker 00 00, and four trailer bytes
(the 16-bit checksum field and the best-effort second 16-bit field). -/
def f11 : List Byte := [0x01, 0x00, 0xFF, 0x05, 0x00, 0x00, 0xAA, 0xBB, 0xCC, 0xDD]

/-- The parse result of `f11`: container v1, records end at position 6, and
all ten bytes were fed to the hash. -/
def c2res : ReadResult := ⟨1, { GRF.init with container_version := some 1 }, f11, 6⟩

/-- C2 counterexample: the container-v1 file `f11` parses successfully with
the record bytes ending at position 6, yet the md5 input is the whole
10-byte file: the four v1 trailer bytes are fed to the hash, because the
source reads the v1 trailer fields before calling `detach_hash`. -/
theorem hash_covers_v1_trailer_cex :
    NewGRF_read f11 = .ok c2res ∧ c2res.hashed = f11 ∧ c2res.recEnd = 6 ∧
      6 < f11.length ∧ f11 ≠ f11.take 6 := by
  refine ⟨by decide, rfl, rfl, by decide, by decide⟩

/-- C2 (amended): for every successful parse, the md5 input is the prefix of
the file consumed at the moment the hash is detached: for container v2 this
is exactly the header and record bytes (the v2 trailer is excluded), but for
container v1 the whole file, including the step-3 trailer fields, is hashed,
since the v1 trailer fields are read before the hash is detached. -/
theorem hash_coverage_by_container (input : List Byte) (res : ReadResult)
    (h : NewGRF_read input = .ok res) :
    (res.cv = 1 → res.hashed = input) ∧
    (res.cv = 2 → res.hashed = input.take res.recEnd) := by
  unfold NewGRF_read at h
  simp only [Bind.bind, Except.bind] at h
  cases hH : readHeader (BinaryReader.mkHashed input) with
  | error e => rw [hH] at h; exact absurd h (by simp)
  | ok hdr =>
    rw [hH] at h
    dsimp only at h
    have hhdr : RInv input hdr.2 := readHeader_rinv (rinv_mkHashed input) hH
    cases hL : runRecords hdr.1.1 input hdr.2 hdr.1.2 with
    | error e => rw [hL] at h; exact absurd h (by simp)
    | ok sEnd =>
      rw [hL] at h
      dsimp only at h
      have hs : RInv input sEnd.reader := runRecords_rinv hhdr hL
      cases hivt : (if hdr.1.1 = 1 then readTrailerV1 sEnd.reader else .ok sEnd.reader) with
      | error e => rw [hivt] at h; exact absurd h (by simp)
      | ok rT =>
        rw [hivt] at h
        dsimp only at h
        cases hv2 : (if hdr.1.1 = 2 then v2Trailer (input.length + 1) rT.detach_hash
            else .ok rT.detach_hash) with
        | error e => rw [hv2] at h; exact absurd h (by simp)
        | ok rF =>
          rw [hv2] at h
          dsimp only at h
          cases hpr : rF.uint8 with
          | ok q => rw [hpr] at h; exact absurd h (by simp)
          | error e2 =>
            rw [hpr] at h
            dsimp only at h
            simp only [Except.ok.injEq] at h
            subst h
            refine ⟨fun hcv => ?_, fun hcv => ?_⟩
            · have hcv1 : hdr.1.1 = 1 := hcv
              rw [if_pos hcv1] at hivt
              rw [if_neg (by omega)] at hv2
              simp only [Except.ok.injEq] at hv2
              have hT : RInv input rT := readTrailerV1_rinv hs hivt
              have hpos := uint8_error_pos hpr
              rw [← hv2] at hpos
              have hlep : input.length ≤ rT.pos := by
                have h9 : rT.input.length ≤ rT.pos := hpos
                rw [hT.1] at h9
                exact h9
              show rF.hashed = input
              rw [← hv2]
              show rT.hashed = input
              rw [hT.2.2.2]
              have hple : rT.pos = input.length := le_antisymm hT.2.1 hlep
              rw [hple, List.take_length]
            · have hcv2 : hdr.1.1 = 2 := hcv
              rw [if_neg (by omega)] at hivt
              simp only [Except.ok.injEq] at hivt
              rw [if_pos hcv2] at hv2
              have hoff := v2Trailer_hashOff (input.length + 1) rT.detach_hash rF rfl hv2
              show rF.hashed = input.take sEnd.reader.pos
              rw [hoff.2]
              show rT.hashed = input.take sEnd.reader.pos
              rw [← hivt]
              exact hs.2.2.2

/-- Witness for C2 at the concrete container-v1 file `f11`. -/
theorem hash_coverage_by_container_witness :
    NewGRF_read f11 = .ok c2res ∧
      ((c2res.cv = 1 → c2res.hashed = f11) ∧
       (c2res.cv = 2 → c2res.hashed = f11.take c2res.recEnd)) :=
  ⟨by decide, hash_coverage_by_container f11 c2res (by decide)⟩

end Grf2Txt
